import Mathlib

/-!
# httpfile: a remote resource as a seekable byte stream

A shallow embedding of `src/httpfile/httpfile.go`.

* Go's `int64` values are integers; every `int64` addition of the source is
  followed by `wrap64`, the reduction into `[-2^63, 2^63)`.
* A Go function returning `(value, err)` returns a pair whose second
  component is `Option Error` (`none` is `nil`).
* The HTTP transport (`http.NewRequest`, `http.DefaultClient.Do`) and the
  behaviour of a response body are outside the source: they are arguments of
  the operations that use them.
* Every operation returns an `Outcome`: the stream after the call, the
  returned value, the returned error and the list of things done to the
  outside world (requests sent, bodies received, bodies closed).
-/

namespace httpfile

/-! ## Machine integers -/

/-- Reduction of an integer into the range of Go's `int64`. -/
def wrap64 (x : Int) : Int := (x + 2 ^ 63) % 2 ^ 64 - 2 ^ 63

/-- The values of Go's `int64`. -/
def IsInt64 (x : Int) : Prop := -(2 ^ 63) ≤ x ∧ x < 2 ^ 63

instance (x : Int) : Decidable (IsInt64 x) := by
  unfold IsInt64; infer_instance

/-- Go's conversion `int64(n)` of a non-negative `int` or `uint64`. -/
def int64 (n : Nat) : Int := wrap64 (n : Int)

/-! ## Errors -/

/-- The two failures of `strconv`: `ErrSyntax` and `ErrRange`. -/
inductive NumErrorKind
  | ErrSyntax
  | ErrRange
  deriving DecidableEq, Repr

/-- Go error values, by the way the source (or its environment) builds them. -/
inductive Error
  /-- The value `errors.New(text)`. -/
  | errorsNew (text : String)
  /-- The value `fmt.Errorf("unhandled whence: %d", whence)`. -/
  | unhandledWhence (whence : Int)
  /-- The value `&strconv.NumError{Func, Num, Err}`. -/
  | numError (func : String) (num : String) (kind : NumErrorKind)
  /-- An error made by the transport or by a response body. -/
  | external (text : String)
  /-- Not an error value: the run-time panic of calling `Read` on a nil
  `me.r`, which `File.Read` never runs into (`Read_no_nilDereference`). -/
  | nilDereference
  deriving DecidableEq, Repr

/-- The source's `var ErrNotFound = errors.New("not found")`. -/
def ErrNotFound : Error := .errorsNew "not found"

/-! ## The outside world -/

abbrev Byte := UInt8

/-- A response body (`io.ReadCloser`) handed out by the transport: `id` tells
bodies apart, `pos` is the offset in the resource of the next byte a read of
this body yields. -/
structure Body where
  id : Nat
  pos : Nat
  deriving DecidableEq, Repr

/-- The result of `missinggo.ParseHTTPBytesContentRange`, of which the source
uses `First` and `Length`. -/
structure HTTPBytesContentRange where
  First : Int
  Length : Int
  deriving DecidableEq, Repr

/-- An `*http.Response`, reduced to what the source reads from it.
`ContentRange` is `resp.Header.Get("Content-Range")` as
`missinggo.ParseHTTPBytesContentRange` (not part of the source file) parses it:
`none` when the parser reports `ok = false`. `ContentLength` is the raw text
`resp.Header.Get("Content-Length")`, empty when the header is absent. -/
structure Response where
  StatusCode : Int
  Status : String
  ContentRange : Option HTTPBytesContentRange
  ContentLength : String
  Body : Body
  deriving DecidableEq, Repr

/-- An `*http.Request` as the source builds it. `Range = some c` is the header
`Range: bytes=c-` set by `fmt.Sprintf("bytes=%d-", c)` in `prepareReader`,
`ContentRange = some c` the header `Content-Range: bytes=c-` set in `Write`. -/
structure Request where
  Method : String
  URL : String
  Range : Option Int
  ContentRange : Option Int
  Body : List Byte
  ContentLength : Int
  deriving DecidableEq, Repr

/-- The transport as one call sees it. -/
structure Transport where
  /-- The error of `http.NewRequest(method, url, body)`, if any. -/
  NewRequest : String → String → Option Error
  /-- The result of `http.DefaultClient.Do(req)`. -/
  Do : Request → Except Error Response

/-- The behaviour of `body.Read(b)` in one call: from the body and `len(b)` to
the bytes stored in `b[:n]` and the error returned. -/
abbrev BodyRead := Body → Nat → List Byte × Option Error

/-- What an operation does to the outside world. -/
inductive Event
  /-- The request was handed to `http.DefaultClient.Do`. -/
  | sent (req : Request)
  /-- The transport returned a response holding this open body. -/
  | received (b : Body)
  /-- The call `Close()` on this body. -/
  | closed (b : Body)
  deriving DecidableEq, Repr

/-! ## The stream -/

/-- The source's `type File struct`. -/
structure File where
  off : Int
  r : Option Body
  rOff : Int
  length : Int
  url : String
  deriving DecidableEq, Repr

/-- The result of an operation on a stream. -/
structure Outcome (α : Type) where
  file : File
  ret : α
  err : Option Error
  events : List Event

/-- The source's `func Open(url string) *File`: every field but `url` has
Go's zero value. -/
def Open (url : String) : File :=
  { off := 0, r := none, rOff := 0, length := 0, url := url }

/-- Go's `os.SEEK_SET`. -/
def SEEK_SET : Int := 0
/-- Go's `os.SEEK_CUR`. -/
def SEEK_CUR : Int := 1
/-- Go's `os.SEEK_END`. -/
def SEEK_END : Int := 2

/-- The source's `func (me *File) Seek(offset int64, whence int) (ret int64, err error)`. -/
def File.Seek (me : File) (offset : Int) (whence : Int) : Outcome Int :=
  if whence = SEEK_SET then
    { file := { me with off := offset }, ret := offset, err := none, events := [] }
  else if whence = SEEK_CUR then
    let ret := wrap64 (me.off + offset)
    { file := { me with off := ret }, ret := ret, err := none, events := [] }
  else if whence = SEEK_END then
    if me.length < 0 then
      { file := me, ret := 0, err := some (.errorsNew "length unknown"), events := [] }
    else
      let ret := wrap64 (me.length + offset)
      { file := { me with off := ret }, ret := ret, err := none, events := [] }
  else
    { file := me, ret := 0, err := some (.unhandledWhence whence), events := [] }

/-! ## strconv -/

/-- Go's `strconv.ParseUint(s, 10, 64)` after the check for the empty string:
the loop over the bytes of `s`, with `n` the value read so far. A byte that is
no decimal digit is a syntax error; `n >= cutoff` (`n * 10` overflows) and a
wrapped or too large `n * 10 + d` are range errors, returned with the value
`1<<64 - 1`. -/
def parseUintLoop : List Char → Nat → Nat × Option NumErrorKind
  | [], n => (n, none)
  | c :: cs, n =>
    if 48 ≤ c.toNat ∧ c.toNat ≤ 57 then
      let v := c.toNat - 48
      if n ≥ (2 ^ 64 - 1) / 10 + 1 then (2 ^ 64 - 1, some .ErrRange)
      else
        let n10 := n * 10 % 2 ^ 64
        let n1 := (n10 + v) % 2 ^ 64
        if n1 < n10 ∨ n1 > 2 ^ 64 - 1 then (2 ^ 64 - 1, some .ErrRange)
        else parseUintLoop cs n1
    else (0, some .ErrSyntax)

/-- Go's `strconv.ParseUint(s, 10, 64)`, value and error kind. -/
def parseUintCore (s : String) : Nat × Option NumErrorKind :=
  if s = "" then (0, some .ErrSyntax) else parseUintLoop s.toList 0

/-- Go's `strconv.ParseUint(s, 10, 64)`. -/
def ParseUint (s : String) : Nat × Option Error :=
  ((parseUintCore s).1, (parseUintCore s).2.map (Error.numError "ParseUint" s))

/-- Go's `strconv.ParseInt(s, 10, 64)`: an optional sign, then `ParseUint` on
the rest; a syntax error gives 0, a value beyond the cutoff `1<<63` gives the
nearest bound with a range error. -/
def ParseInt (s : String) : Int × Option Error :=
  if s = "" then (0, some (.numError "ParseInt" s .ErrSyntax))
  else
    let neg := s.toList.head? = some '-'
    let rest : List Char :=
      if s.toList.head? = some '+' ∨ s.toList.head? = some '-' then s.toList.tail else s.toList
    let un : Nat × Option NumErrorKind :=
      if rest = [] then (0, some .ErrSyntax) else parseUintLoop rest 0
    if un.2 = some .ErrSyntax then (0, some (.numError "ParseInt" s .ErrSyntax))
    else if ¬ neg ∧ un.1 ≥ 2 ^ 63 then (2 ^ 63 - 1, some (.numError "ParseInt" s .ErrRange))
    else if neg ∧ un.1 > 2 ^ 63 then (-(2 ^ 63), some (.numError "ParseInt" s .ErrRange))
    else if neg then (wrap64 (-(int64 un.1)), none)
    else (int64 un.1, none)

/-! ## Reading -/

/-- The request `prepareReader` builds for the stream's url and cursor: a GET
that carries `Range: bytes=off-` unless the cursor is 0. -/
def readRequest (url : String) (off : Int) : Request :=
  { Method := "GET", URL := url, Range := if off ≠ 0 then some off else none,
    ContentRange := none, Body := [], ContentLength := 0 }

/-- The source's `func (me *File) prepareReader() (err error)`. -/
def File.prepareReader (me : File) (t : Transport) : Outcome Unit :=
  -- if me.r != nil && me.off != me.rOff { me.r.Close(); me.r = nil }
  let me1 : File := if me.r ≠ none ∧ me.off ≠ me.rOff then { me with r := none } else me
  let ev1 : List Event :=
    match me.r with
    | some b => if me.off ≠ me.rOff then [.closed b] else []
    | none => []
  -- if me.r != nil { return nil }
  if me1.r ≠ none then { file := me1, ret := (), err := none, events := ev1 }
  else
    match t.NewRequest "GET" me1.url with
    | some err => { file := me1, ret := (), err := some err, events := ev1 }
    | none =>
      let req : Request := readRequest me1.url me1.off
      match t.Do req with
      | .error err => { file := me1, ret := (), err := some err, events := ev1 ++ [.sent req] }
      | .ok resp =>
        let ev2 := ev1 ++ [.sent req, .received resp.Body]
        let reject (e : Error) : Outcome Unit :=
          { file := me1, ret := (), err := some e, events := ev2 ++ [.closed resp.Body] }
        let adopt (f : File) : Outcome Unit :=
          { file := { f with r := some resp.Body, rOff := f.off }, ret := (), err := none,
            events := ev2 }
        if resp.StatusCode = 206 then
          match resp.ContentRange with
          | none => reject (.errorsNew "bad response")
          | some cr =>
            if cr.First ≠ me1.off then reject (.errorsNew "bad response")
            else adopt { me1 with length := cr.Length }
        else if resp.StatusCode = 200 then
          if me1.off ≠ 0 then reject (.errorsNew "bad response")
          else if resp.ContentLength ≠ "" then
            match ParseUint resp.ContentLength with
            | (_, some err) => reject err
            | (cl, none) => adopt { me1 with length := int64 cl }
          else adopt me1
        else reject (.errorsNew resp.Status)

/-- What lines 30-33 of `prepareReader` do to the outside world: a held body
bound to another position than the cursor is closed. -/
def File.staleClose (me : File) : List Event :=
  match me.r with
  | some b => if me.off ≠ me.rOff then [.closed b] else []
  | none => []

/-- The states in which `prepareReader` cannot reuse a body: none is held, or
the held one is bound to another position than the cursor. -/
def File.needsRequest (me : File) : Prop := me.r = none ∨ me.off ≠ me.rOff

instance (me : File) : Decidable me.needsRequest := by
  unfold File.needsRequest; infer_instance

/-- The source's `func (me *File) Read(b []byte) (n int, err error)`; `len` is
`len(b)`, the returned list is `b[:n]`. -/
def File.Read (me : File) (t : Transport) (rd : BodyRead) (len : Nat) : Outcome (List Byte) :=
  let p := me.prepareReader t
  match p.err with
  | some err => { file := p.file, ret := [], err := some err, events := p.events }
  | none =>
    match p.file.r with
    | none => { file := p.file, ret := [], err := some .nilDereference, events := p.events }
    | some body =>
      let out := rd body len
      let n := out.1.length
      { file := { p.file with
                  off := wrap64 (p.file.off + int64 n),
                  rOff := wrap64 (p.file.rOff + int64 n),
                  r := some { body with pos := body.pos + n } },
        ret := out.1, err := out.2, events := p.events }

/-! ## Length discovery -/

/-- The source's `func instanceLength(r *http.Response) (int64, error)`. -/
def instanceLength (r : Response) : Int × Option Error :=
  if r.StatusCode = 200 then
    if r.ContentLength ≠ "" then ParseInt r.ContentLength else (-1, none)
  else if r.StatusCode = 206 then
    match r.ContentRange with
    | none => (-1, some (.errorsNew "bad 206 response"))
    | some cr => (cr.Length, none)
  else (-1, some (.errorsNew r.Status))

/-- The result of a call that works on no stream. -/
structure CallResult where
  ret : Int
  err : Option Error
  events : List Event
  deriving DecidableEq, Repr

/-- The request of `http.Get(url)`: a GET without a Range header. -/
def plainGet (url : String) : Request :=
  { Method := "GET", URL := url, Range := none, ContentRange := none, Body := [],
    ContentLength := 0 }

/-- The source's `func GetLength(url string) (ret int64, err error)`;
`http.Get(url)` is `http.NewRequest("GET", url, nil)` followed by `Do`. -/
def GetLength (t : Transport) (url : String) : CallResult :=
  match t.NewRequest "GET" url with
  | some err => { ret := 0, err := some err, events := [] }
  | none =>
    let req : Request := plainGet url
    match t.Do req with
    | .error err => { ret := 0, err := some err, events := [.sent req] }
    | .ok resp =>
      let ev := [Event.sent req, .received resp.Body, .closed resp.Body]
      if resp.StatusCode = 404 then { ret := 0, err := some ErrNotFound, events := ev }
      else { ret := (instanceLength resp).1, err := (instanceLength resp).2, events := ev }

/-! ## Writing and closing -/

/-- The request `Write` builds: a PATCH of `b` that carries
`Content-Range: bytes=off-` and the content length `int64(len(b))`. -/
def writeRequest (url : String) (off : Int) (b : List Byte) : Request :=
  { Method := "PATCH", URL := url, Range := none, ContentRange := some off,
    Body := b, ContentLength := int64 b.length }

/-- The source's `func (me *File) Write(b []byte) (n int, err error)`. -/
def File.Write (me : File) (t : Transport) (b : List Byte) : Outcome Nat :=
  match t.NewRequest "PATCH" me.url with
  | some err => { file := me, ret := 0, err := some err, events := [] }
  | none =>
    let req : Request := writeRequest me.url me.off b
    match t.Do req with
    | .error err => { file := me, ret := 0, err := some err, events := [.sent req] }
    | .ok resp =>
      let ev := [Event.sent req, .received resp.Body, .closed resp.Body]
      if resp.StatusCode ≠ 206 then
        { file := me, ret := 0, err := some (.errorsNew resp.Status), events := ev }
      else
        { file := { me with off := wrap64 (me.off + int64 b.length) }, ret := b.length,
          err := none, events := ev }

/-- The source's `func (me *File) Close() error`. -/
def File.Close (me : File) : Outcome Unit :=
  { file := { me with url := "", r := none }, ret := (), err := none,
    events := match me.r with
      | some b => [.closed b]
      | none => [] }

/-! ## Example transports -/

/-- A transport that accepts every request and answers each with `resp`. -/
def answering (resp : Response) : Transport :=
  { NewRequest := fun _ _ => none, Do := fun _ => .ok resp }

/-- A transport that accepts every request and then fails with `e`. -/
def failing (e : Error) : Transport :=
  { NewRequest := fun _ _ => none, Do := fun _ => .error e }

/-- A body read that yields nothing and reports the end of the stream. -/
def atEOF : BodyRead := fun _ _ => ([], some (.errorsNew "EOF"))

/-! ## A well-behaved server -/

/-- The transport is a well-behaved server at `url`: every GET is accepted; a
GET at offset 0 (no Range header) is answered 200, or 206 with start 0; a GET
with `Range: bytes=c-` is answered 206 with Content-Range start `c`; the body
of the response stands at the offset the response starts at. -/
def WellBehaved (url : String) (t : Transport) : Prop :=
  t.NewRequest "GET" url = none ∧
  ∀ c : Int, 0 ≤ c → ∃ resp, t.Do (readRequest url c) = .ok resp ∧
    resp.Body.pos = c.toNat ∧
    ((resp.StatusCode = 206 ∧ ∃ T, resp.ContentRange = some ⟨c, T⟩) ∨
     (c = 0 ∧ resp.StatusCode = 200))

/-- The Content-Length of a 200 the transport gives at `url` is absent or read
by `ParseUint` without error. -/
def ReadableLength (url : String) (t : Transport) : Prop :=
  ∀ resp, t.Do (readRequest url 0) = .ok resp → resp.StatusCode = 200 →
    resp.ContentLength = "" ∨ (ParseUint resp.ContentLength).2 = none

/-- The body read yields `D` from the body's position on: what a read returns
is the part of `D` that starts there, no longer than the buffer, and not empty
when the buffer is not empty and `D` has bytes left. -/
def YieldsFrom (D : List Byte) (rd : BodyRead) : Prop :=
  ∀ (body : Body) (len : Nat),
    (rd body len).1 = (D.drop body.pos).take (rd body len).1.length ∧
    (rd body len).1.length ≤ len ∧
    (0 < len → body.pos < D.length → (rd body len).1 ≠ [])

/-- An executable well-behaved server for `D`: it answers a GET without Range
header with 200 and `Content-Length: len(D)` when `use200` is set and with 206
otherwise, and a GET with `Range: bytes=c-` with 206 and start `c`; the bodies
it hands out carry the identity `id`. -/
def server (D : List Byte) (use200 : Bool) (id : Nat) : Transport :=
  { NewRequest := fun _ _ => none,
    Do := fun req =>
      match req.Range with
      | none =>
        if use200 then
          .ok { StatusCode := 200, Status := "200 OK", ContentRange := none,
                ContentLength := toString D.length, Body := { id := id, pos := 0 } }
        else
          .ok { StatusCode := 206, Status := "206 Partial Content",
                ContentRange := some { First := 0, Length := D.length },
                ContentLength := "", Body := { id := id, pos := 0 } }
      | some c =>
        .ok { StatusCode := 206, Status := "206 Partial Content",
              ContentRange := some { First := c, Length := D.length },
              ContentLength := "", Body := { id := id, pos := c.toNat } } }

/-- An executable body read over `D`: of the `avail` bytes that fit the buffer
and are left in `D` it returns the first `pick % avail + 1`; with nothing left
it reports the end of the stream. -/
def bodyOf (D : List Byte) (pick : Nat) : BodyRead := fun body len =>
  let avail := min len (D.length - body.pos)
  if avail = 0 then ([], if len = 0 then none else some (.errorsNew "EOF"))
  else ((D.drop body.pos).take (pick % avail + 1), none)

/-- One `Read` call of a sequence: the transport and the body behaviour it
meets, and `len(b)`. -/
structure ReadCall where
  t : Transport
  rd : BodyRead
  len : Nat

/-- A sequence of `Read` calls with nothing in between: the stream after the
last call and the concatenation of the bytes returned. -/
def readAll (me : File) : List ReadCall → File × List Byte
  | [] => (me, [])
  | c :: cs =>
    ((readAll (me.Read c.t c.rd c.len).file cs).1,
     (me.Read c.t c.rd c.len).ret ++ (readAll (me.Read c.t c.rd c.len).file cs).2)

/-- The requests among the events of a call, in order. -/
def requests : List Event → List Request
  | [] => []
  | .sent req :: es => req :: requests es
  | _ :: es => requests es

/-- The held body, if any, stands where the stream believes it to (the
invariant of the spec's data model). -/
def File.bodyInPlace (me : File) : Prop := ∀ b, me.r = some b → (b.pos : Int) = me.rOff

/-- The state of a stream that reads `D` sequentially and has reached the
offset `p`: either it holds a body bound to the cursor that stands at `p`, or
its cursor is `p` and the body it may hold stands where it is bound to. -/
def SeqAt (me : File) (p : Nat) : Prop :=
  (∃ b, me.r = some b ∧ me.off = me.rOff ∧ b.pos = p) ∨
  (me.off = (p : Int) ∧ me.bodyInPlace)

/-- The call `Seek(k, start)` followed by `Read`. -/
def seekRead (me : File) (k : Int) (t : Transport) (rd : BodyRead) (len : Nat) :
    Outcome (List Byte) :=
  (me.Seek k SEEK_SET).file.Read t rd len

/-- A resource of five bytes, for the examples. -/
def fiveBytes : List Byte := [10, 20, 30, 40, 50]

/-- Two reads of `fiveBytes`: the first meets a server that answers 206 and a
body that gives one byte of the two asked for, the second has a buffer of
eight bytes and gets two of them. -/
def twoReads : List ReadCall :=
  [{ t := server fiveBytes false 1, rd := bodyOf fiveBytes 0, len := 2 },
   { t := server fiveBytes true 2, rd := bodyOf fiveBytes 1, len := 8 }]

/-! ## Sequences of calls -/

/-- One call on a stream, with the transport and the body behaviour it meets. -/
inductive Op
  | read (t : Transport) (rd : BodyRead) (len : Nat)
  | seek (offset whence : Int)
  | write (t : Transport) (b : List Byte)
  | close

/-- The stream after the call and what the call did to the outside world. -/
def Op.apply (me : File) : Op → File × List Event
  | .read t rd len => ((me.Read t rd len).file, (me.Read t rd len).events)
  | .seek offset whence => ((me.Seek offset whence).file, (me.Seek offset whence).events)
  | .write t b => ((me.Write t b).file, (me.Write t b).events)
  | .close => (me.Close.file, me.Close.events)

/-- A sequence of calls: the stream after the last one and everything done to
the outside world, in order. -/
def run (me : File) : List Op → File × List Event
  | [] => (me, [])
  | op :: ops =>
    ((run (op.apply me).1 ops).1, (op.apply me).2 ++ (run (op.apply me).1 ops).2)

/-- The identities of the bodies handed out by the transport and not yet
closed, after the events `es`, when `s` were open before them. -/
def track (s : List Nat) : List Event → List Nat
  | [] => s
  | .received b :: es => track (b.id :: s) es
  | .closed b :: es => track (s.erase b.id) es
  | .sent _ :: es => track s es

/-- The identity of the body the stream holds, as a list of at most one. -/
def File.held (me : File) : List Nat :=
  match me.r with
  | none => []
  | some b => [b.id]

/-- The body of a response the transport gives starts at the offset the
response declares: 0 for a 200, the Content-Range start, an `int64`, for a
206. -/
def Honest (t : Transport) : Prop :=
  ∀ req resp, t.Do req = .ok resp →
    (resp.StatusCode = 200 → resp.Body.pos = 0) ∧
    (resp.StatusCode = 206 → ∀ cr, resp.ContentRange = some cr →
      IsInt64 cr.First ∧ (resp.Body.pos : Int) = cr.First)

/-- Every `Read` of the sequence meets an honest transport. -/
def AllHonest : List Op → Prop
  | [] => True
  | .read t _ _ :: ops => Honest t ∧ AllHonest ops
  | _ :: ops => AllHonest ops

/-- The bound position is the position of the held body, if any, reduced to
a signed 64-bit value. -/
def File.boundToBody (me : File) : Prop :=
  ∀ b, me.r = some b → wrap64 (b.pos : Int) = me.rOff

/-! ## Facts about the machine integers -/

theorem wrap64_eq_self {x : Int} (h : IsInt64 x) : wrap64 x = x := by
  unfold IsInt64 at h
  unfold wrap64
  omega

theorem wrap64_isInt64 (x : Int) : IsInt64 (wrap64 x) := by
  unfold IsInt64 wrap64
  omega

/-! ## Seek -/

/-- C3 (counterexample): with the cursor at the largest `int64` value,
`Seek(1, current)` returns the smallest `int64` value and not cursor + offset. -/
theorem C3_seek_current_overflow :
    IsInt64 (2 ^ 63 - 1) ∧ IsInt64 1 ∧
    (File.Seek { off := 2 ^ 63 - 1, r := none, rOff := 0, length := 0, url := "u" } 1 SEEK_CUR).ret
      = -(2 ^ 63) ∧
    (File.Seek { off := 2 ^ 63 - 1, r := none, rOff := 0, length := 0, url := "u" } 1 SEEK_CUR).ret
      ≠ (2 ^ 63 - 1) + 1 := by
  decide

/-- C3 (amended): `Seek(offset, start)` returns `offset`; `Seek(offset, current)`
returns cursor + offset reduced to a signed 64-bit value, which is cursor +
offset itself whenever that sum is an `int64`; `Seek(offset, end)` with
length >= 0 returns length + offset in the same way. In each case the error is
nil and the cursor after the call is the returned position, whatever its sign
and whatever the length. -/
theorem C3_seek_arithmetic (me : File) (offset : Int) :
    ((me.Seek offset SEEK_SET).ret = offset ∧
      (me.Seek offset SEEK_SET).err = none ∧
      (me.Seek offset SEEK_SET).file.off = (me.Seek offset SEEK_SET).ret) ∧
    ((me.Seek offset SEEK_CUR).ret = wrap64 (me.off + offset) ∧
      (IsInt64 (me.off + offset) → (me.Seek offset SEEK_CUR).ret = me.off + offset) ∧
      (me.Seek offset SEEK_CUR).err = none ∧
      (me.Seek offset SEEK_CUR).file.off = (me.Seek offset SEEK_CUR).ret) ∧
    (0 ≤ me.length →
      (me.Seek offset SEEK_END).ret = wrap64 (me.length + offset) ∧
      (IsInt64 (me.length + offset) → (me.Seek offset SEEK_END).ret = me.length + offset) ∧
      (me.Seek offset SEEK_END).err = none ∧
      (me.Seek offset SEEK_END).file.off = (me.Seek offset SEEK_END).ret) := by
  refine ⟨?_, ?_, ?_⟩
  · simp [File.Seek, SEEK_SET]
  · refine ⟨?_, ?_, ?_, ?_⟩
    · simp [File.Seek, SEEK_SET, SEEK_CUR]
    · intro h
      simp [File.Seek, SEEK_SET, SEEK_CUR, wrap64_eq_self h]
    · simp [File.Seek, SEEK_SET, SEEK_CUR]
    · simp [File.Seek, SEEK_SET, SEEK_CUR]
  · intro hlen
    have hnot : ¬ me.length < 0 := by omega
    refine ⟨?_, ?_, ?_, ?_⟩
    · simp [File.Seek, SEEK_SET, SEEK_CUR, SEEK_END, hnot]
    · intro h
      simp [File.Seek, SEEK_SET, SEEK_CUR, SEEK_END, hnot, wrap64_eq_self h]
    · simp [File.Seek, SEEK_SET, SEEK_CUR, SEEK_END, hnot]
    · simp [File.Seek, SEEK_SET, SEEK_CUR, SEEK_END, hnot]

/-- C3 (witness): a seek from the end of a stream of length 500 to offset -20
lands on 480, and a seek from the start to -7 sets the cursor to -7. -/
theorem C3_seek_arithmetic_witness :
    (File.Seek { off := 3, r := none, rOff := 0, length := 500, url := "u" } (-20) SEEK_END).ret
      = 480 ∧
    (File.Seek { off := 3, r := none, rOff := 0, length := 500, url := "u" } (-7) SEEK_SET).file.off
      = -7 :=
  ⟨((C3_seek_arithmetic { off := 3, r := none, rOff := 0, length := 500, url := "u" }
      (-20)).2.2 (by decide)).2.1 (by decide),
   by decide⟩

/-- C4 (the code at the failing input): on the stream `Open` returns, whose
length field is Go's zero value 0, `Seek(offset, end)` returns no error,
returns `offset` reduced to 64 bits and moves the cursor there. -/
theorem C4_seek_end_fresh (url : String) (offset : Int) :
    (Open url).length = 0 ∧
    ((Open url).Seek offset SEEK_END).err = none ∧
    ((Open url).Seek offset SEEK_END).ret = wrap64 offset ∧
    ((Open url).Seek offset SEEK_END).file.off = wrap64 offset := by
  simp [Open, File.Seek, SEEK_SET, SEEK_CUR, SEEK_END]

/-- C5: `Seek` returns an error exactly when whence is none of 0, 1, 2, or
whence is 2 (end) and length < 0; in the first case the error is the
unhandled-whence error, in the second the length-unknown error. -/
theorem C5_seek_fails_iff (me : File) (offset whence : Int) :
    ((me.Seek offset whence).err ≠ none ↔
      ((whence ≠ SEEK_SET ∧ whence ≠ SEEK_CUR ∧ whence ≠ SEEK_END) ∨
        (whence = SEEK_END ∧ me.length < 0))) ∧
    ((whence ≠ SEEK_SET ∧ whence ≠ SEEK_CUR ∧ whence ≠ SEEK_END) →
      (me.Seek offset whence).err = some (.unhandledWhence whence)) ∧
    ((whence = SEEK_END ∧ me.length < 0) →
      (me.Seek offset whence).err = some (.errorsNew "length unknown")) := by
  unfold File.Seek
  by_cases h0 : whence = SEEK_SET
  · subst h0; simp [SEEK_SET, SEEK_CUR, SEEK_END]
  · by_cases h1 : whence = SEEK_CUR
    · subst h1; simp [SEEK_SET, SEEK_CUR, SEEK_END]
    · by_cases h2 : whence = SEEK_END
      · subst h2
        by_cases hl : me.length < 0 <;> simp [SEEK_SET, SEEK_CUR, SEEK_END, hl]
      · simp [h0, h1, h2]

/-- C5 (witness): whence 7 is refused as unhandled, and a seek from the end
is refused on a stream whose length is -1. -/
theorem C5_seek_fails_iff_witness :
    (File.Seek { off := 3, r := none, rOff := 0, length := 500, url := "u" } 4 7).err
      = some (.unhandledWhence 7) ∧
    (File.Seek { off := 3, r := none, rOff := 0, length := -1, url := "u" } 4 SEEK_END).err
      = some (.errorsNew "length unknown") :=
  ⟨(C5_seek_fails_iff { off := 3, r := none, rOff := 0, length := 500, url := "u" } 4 7).2.1
      (by decide),
   (C5_seek_fails_iff { off := 3, r := none, rOff := 0, length := -1, url := "u" } 4 SEEK_END).2.2
      (by decide)⟩

/-! ## Reacquisition, branch by branch

In a state that needs a request, with `http.NewRequest` succeeding and the
transport returning `resp`, `prepareReader` is one of the eight outcomes below.
-/

section branches

variable (me : File) (t : Transport) (resp : Response)

theorem prepareReader_reuse (b : Body) (hr : me.r = some b) (heq : me.off = me.rOff) :
    me.prepareReader t = { file := me, ret := (), err := none, events := [] } := by
  obtain ⟨off, r, rOff, length, url⟩ := me
  simp only at hr heq
  subst hr heq
  simp [File.prepareReader]

theorem prepareReader_newRequest_error (e : Error) (hneed : me.needsRequest)
    (hnew : t.NewRequest "GET" me.url = some e) :
    me.prepareReader t =
      { file := { me with r := none }, ret := (), err := some e, events := me.staleClose } := by
  obtain ⟨off, r, rOff, length, url⟩ := me
  simp only [File.needsRequest] at hneed hnew
  cases r with
  | none => simp [File.prepareReader, File.staleClose, hnew]
  | some b =>
    have hne : off ≠ rOff := by simpa using hneed
    simp [File.prepareReader, File.staleClose, hnew, hne]

theorem prepareReader_do_error (e : Error) (hneed : me.needsRequest)
    (hnew : t.NewRequest "GET" me.url = none)
    (hdo : t.Do (readRequest me.url me.off) = .error e) :
    me.prepareReader t =
      { file := { me with r := none }, ret := (), err := some e,
        events := me.staleClose ++ [.sent (readRequest me.url me.off)] } := by
  obtain ⟨off, r, rOff, length, url⟩ := me
  simp only [File.needsRequest] at hneed hnew hdo
  cases r with
  | none => simp [File.prepareReader, File.staleClose, hnew, hdo]
  | some b =>
    have hne : off ≠ rOff := by simpa using hneed
    simp [File.prepareReader, File.staleClose, hnew, hdo, hne]

theorem prepareReader_206_unparsed (hneed : me.needsRequest)
    (hnew : t.NewRequest "GET" me.url = none)
    (hdo : t.Do (readRequest me.url me.off) = .ok resp)
    (hs : resp.StatusCode = 206) (hcr : resp.ContentRange = none) :
    me.prepareReader t =
      { file := { me with r := none }, ret := (), err := some (.errorsNew "bad response"),
        events := me.staleClose ++
          [.sent (readRequest me.url me.off), .received resp.Body, .closed resp.Body] } := by
  obtain ⟨off, r, rOff, length, url⟩ := me
  simp only [File.needsRequest] at hneed hnew hdo
  cases r with
  | none => simp [File.prepareReader, File.staleClose, hnew, hdo, hs, hcr]
  | some b =>
    have hne : off ≠ rOff := by simpa using hneed
    simp [File.prepareReader, File.staleClose, hnew, hdo, hne, hs, hcr]

theorem prepareReader_206_mismatch (cr : HTTPBytesContentRange) (hneed : me.needsRequest)
    (hnew : t.NewRequest "GET" me.url = none)
    (hdo : t.Do (readRequest me.url me.off) = .ok resp)
    (hs : resp.StatusCode = 206) (hcr : resp.ContentRange = some cr) (hne : cr.First ≠ me.off) :
    me.prepareReader t =
      { file := { me with r := none }, ret := (), err := some (.errorsNew "bad response"),
        events := me.staleClose ++
          [.sent (readRequest me.url me.off), .received resp.Body, .closed resp.Body] } := by
  obtain ⟨off, r, rOff, length, url⟩ := me
  simp only [File.needsRequest] at hneed hnew hdo hne
  cases r with
  | none => simp [File.prepareReader, File.staleClose, hnew, hdo, hs, hcr, hne]
  | some b =>
    have hne2 : off ≠ rOff := by simpa using hneed
    simp [File.prepareReader, File.staleClose, hnew, hdo, hne2, hs, hcr, hne]

theorem prepareReader_206_accept (cr : HTTPBytesContentRange) (hneed : me.needsRequest)
    (hnew : t.NewRequest "GET" me.url = none)
    (hdo : t.Do (readRequest me.url me.off) = .ok resp)
    (hs : resp.StatusCode = 206) (hcr : resp.ContentRange = some cr) (heq : cr.First = me.off) :
    me.prepareReader t =
      { file := { me with r := some resp.Body, rOff := me.off, length := cr.Length },
        ret := (), err := none,
        events := me.staleClose ++
          [.sent (readRequest me.url me.off), .received resp.Body] } := by
  obtain ⟨off, r, rOff, length, url⟩ := me
  simp only [File.needsRequest] at hneed hnew hdo heq
  cases r with
  | none => simp [File.prepareReader, File.staleClose, hnew, hdo, hs, hcr, heq]
  | some b =>
    have hne2 : off ≠ rOff := by simpa using hneed
    simp [File.prepareReader, File.staleClose, hnew, hdo, hne2, hs, hcr, heq]

theorem prepareReader_200_nonzero (hneed : me.needsRequest)
    (hnew : t.NewRequest "GET" me.url = none)
    (hdo : t.Do (readRequest me.url me.off) = .ok resp)
    (hs : resp.StatusCode = 200) (hoff : me.off ≠ 0) :
    me.prepareReader t =
      { file := { me with r := none }, ret := (), err := some (.errorsNew "bad response"),
        events := me.staleClose ++
          [.sent (readRequest me.url me.off), .received resp.Body, .closed resp.Body] } := by
  obtain ⟨off, r, rOff, length, url⟩ := me
  simp only [File.needsRequest] at hneed hnew hdo hoff
  cases r with
  | none => simp [File.prepareReader, File.staleClose, hnew, hdo, hs, hoff]
  | some b =>
    have hne2 : off ≠ rOff := by simpa using hneed
    simp [File.prepareReader, File.staleClose, hnew, hdo, hne2, hs, hoff]

theorem prepareReader_200_unparsed (v : Nat) (e : Error) (hneed : me.needsRequest)
    (hnew : t.NewRequest "GET" me.url = none)
    (hdo : t.Do (readRequest me.url me.off) = .ok resp)
    (hs : resp.StatusCode = 200) (hoff : me.off = 0) (hcl : resp.ContentLength ≠ "")
    (hp : ParseUint resp.ContentLength = (v, some e)) :
    me.prepareReader t =
      { file := { me with r := none }, ret := (), err := some e,
        events := me.staleClose ++
          [.sent (readRequest me.url me.off), .received resp.Body, .closed resp.Body] } := by
  obtain ⟨off, r, rOff, length, url⟩ := me
  simp only [File.needsRequest] at hneed hnew hdo hoff
  subst hoff
  cases r with
  | none => simp [File.prepareReader, File.staleClose, hnew, hdo, hs, hcl, hp]
  | some b =>
    have hne2 : (0 : Int) ≠ rOff := by simpa using hneed
    simp [File.prepareReader, File.staleClose, hnew, hdo, hne2, hs, hcl, hp]

theorem prepareReader_200_length (v : Nat) (hneed : me.needsRequest)
    (hnew : t.NewRequest "GET" me.url = none)
    (hdo : t.Do (readRequest me.url me.off) = .ok resp)
    (hs : resp.StatusCode = 200) (hoff : me.off = 0) (hcl : resp.ContentLength ≠ "")
    (hp : ParseUint resp.ContentLength = (v, none)) :
    me.prepareReader t =
      { file := { me with r := some resp.Body, rOff := me.off, length := int64 v },
        ret := (), err := none,
        events := me.staleClose ++
          [.sent (readRequest me.url me.off), .received resp.Body] } := by
  obtain ⟨off, r, rOff, length, url⟩ := me
  simp only [File.needsRequest] at hneed hnew hdo hoff
  subst hoff
  cases r with
  | none => simp [File.prepareReader, File.staleClose, hnew, hdo, hs, hcl, hp]
  | some b =>
    have hne2 : (0 : Int) ≠ rOff := by simpa using hneed
    simp [File.prepareReader, File.staleClose, hnew, hdo, hne2, hs, hcl, hp]

theorem prepareReader_200_no_length (hneed : me.needsRequest)
    (hnew : t.NewRequest "GET" me.url = none)
    (hdo : t.Do (readRequest me.url me.off) = .ok resp)
    (hs : resp.StatusCode = 200) (hoff : me.off = 0) (hcl : resp.ContentLength = "") :
    me.prepareReader t =
      { file := { me with r := some resp.Body, rOff := me.off },
        ret := (), err := none,
        events := me.staleClose ++
          [.sent (readRequest me.url me.off), .received resp.Body] } := by
  obtain ⟨off, r, rOff, length, url⟩ := me
  simp only [File.needsRequest] at hneed hnew hdo hoff
  subst hoff
  cases r with
  | none => simp [File.prepareReader, File.staleClose, hnew, hdo, hs, hcl]
  | some b =>
    have hne2 : (0 : Int) ≠ rOff := by simpa using hneed
    simp [File.prepareReader, File.staleClose, hnew, hdo, hne2, hs, hcl]

theorem prepareReader_other_status (hneed : me.needsRequest)
    (hnew : t.NewRequest "GET" me.url = none)
    (hdo : t.Do (readRequest me.url me.off) = .ok resp)
    (h206 : resp.StatusCode ≠ 206) (h200 : resp.StatusCode ≠ 200) :
    me.prepareReader t =
      { file := { me with r := none }, ret := (), err := some (.errorsNew resp.Status),
        events := me.staleClose ++
          [.sent (readRequest me.url me.off), .received resp.Body, .closed resp.Body] } := by
  obtain ⟨off, r, rOff, length, url⟩ := me
  simp only [File.needsRequest] at hneed hnew hdo
  cases r with
  | none => simp [File.prepareReader, File.staleClose, hnew, hdo, h206, h200]
  | some b =>
    have hne2 : off ≠ rOff := by simpa using hneed
    simp [File.prepareReader, File.staleClose, hnew, hdo, hne2, h206, h200]

end branches

/-! ## Decimal numerals are read back by `ParseUint` -/

theorem digitChar_toNat (d : Nat) (h : d < 10) : (Nat.digitChar d).toNat = 48 + d := by
  interval_cases d <;> rfl

theorem toDigitsCore_append (fuel n : Nat) (ds : List Char) :
    Nat.toDigitsCore 10 fuel n ds = Nat.toDigitsCore 10 fuel n [] ++ ds := by
  induction fuel generalizing n ds with
  | zero => simp [Nat.toDigitsCore]
  | succ f ih =>
    simp only [Nat.toDigitsCore]
    split
    · simp
    · rw [ih (n / 10) (Nat.digitChar (n % 10) :: ds), ih (n / 10) [Nat.digitChar (n % 10)]]
      simp

theorem toDigitsCore_fuel (fuel n : Nat) (h : n < fuel) :
    Nat.toDigitsCore 10 fuel n [] = Nat.toDigitsCore 10 (n + 1) n [] := by
  induction fuel using Nat.strong_induction_on generalizing n with
  | _ fuel ih =>
    cases fuel with
    | zero => omega
    | succ f =>
      simp only [Nat.toDigitsCore]
      split
      · rfl
      · have h1 : n / 10 < f := by omega
        have h2 : n / 10 < n := by omega
        rw [toDigitsCore_append f, toDigitsCore_append n]
        rw [ih f (by omega) (n / 10) h1, ih n (by omega) (n / 10) h2]

theorem toDigits_small (n : Nat) (h : n < 10) : Nat.toDigits 10 n = [Nat.digitChar n] := by
  unfold Nat.toDigits
  simp only [Nat.toDigitsCore]
  have : n / 10 = 0 := by omega
  simp [this, Nat.mod_eq_of_lt h]

theorem toDigits_big (n : Nat) (h : 10 ≤ n) :
    Nat.toDigits 10 n = Nat.toDigits 10 (n / 10) ++ [Nat.digitChar (n % 10)] := by
  unfold Nat.toDigits
  conv => lhs; simp only [Nat.toDigitsCore]
  have : n / 10 ≠ 0 := by omega
  simp only [this, if_false]
  rw [toDigitsCore_append, toDigitsCore_fuel n (n / 10) (by omega)]

theorem toDigits_ne_nil (n : Nat) : Nat.toDigits 10 n ≠ [] := by
  by_cases h : n < 10
  · rw [toDigits_small n h]; simp
  · rw [toDigits_big n (by omega)]; simp

theorem parseUintLoop_snoc (xs : List Char) (c : Char) (acc : Nat) :
    parseUintLoop (xs ++ [c]) acc =
      if (parseUintLoop xs acc).2 = none then parseUintLoop [c] (parseUintLoop xs acc).1
      else parseUintLoop xs acc := by
  induction xs generalizing acc with
  | nil => simp [parseUintLoop]
  | cons x xs ih =>
    simp only [List.cons_append]
    rw [parseUintLoop, parseUintLoop]
    dsimp only
    split_ifs <;> first | rfl | exact ih _ | simp_all

theorem parseUintLoop_digit (d v : Nat) (hd : d < 10) (hv : v * 10 + d < 2 ^ 64) :
    parseUintLoop [Nat.digitChar d] v = (v * 10 + d, none) := by
  simp only [parseUintLoop, digitChar_toNat d hd]
  have h1 : ¬ v ≥ (2 ^ 64 - 1) / 10 + 1 := by omega
  have h2 : v * 10 % 2 ^ 64 = v * 10 := Nat.mod_eq_of_lt (by omega)
  have h3 : (v * 10 + (48 + d - 48)) % 2 ^ 64 = v * 10 + d := by
    rw [Nat.mod_eq_of_lt] <;> omega
  simp only [h2, h3]
  have h4 : ¬ (v * 10 + d < v * 10 ∨ v * 10 + d > 2 ^ 64 - 1) := by omega
  have h5 : (48 ≤ 48 + d ∧ 48 + d ≤ 57) := by omega
  simp only [h1, h4, h5, if_true, if_false, and_self]

theorem parseUintLoop_toDigits (n : Nat) (h : n < 2 ^ 64) :
    parseUintLoop (Nat.toDigits 10 n) 0 = (n, none) := by
  induction n using Nat.strong_induction_on with
  | _ n ih =>
    by_cases hs : n < 10
    · rw [toDigits_small n hs]
      have := parseUintLoop_digit n 0 hs (by omega)
      simpa using this
    · rw [toDigits_big n (by omega), parseUintLoop_snoc, ih (n / 10) (by omega) (by omega)]
      simp only [if_true]
      rw [parseUintLoop_digit (n % 10) (n / 10) (by omega) (by omega)]
      congr 1
      omega

theorem toString_nat_ne_empty (n : Nat) : toString n ≠ "" := by
  intro h
  have h2 : (toString n).toList = ("" : String).toList := by rw [h]
  exact toDigits_ne_nil n h2

/-- The decimal numeral of a value below `2^64` is read back by `ParseUint`
without error. -/
theorem ParseUint_toString (n : Nat) (h : n < 2 ^ 64) : ParseUint (toString n) = (n, none) := by
  have hl : (toString n).toList = Nat.toDigits 10 n := rfl
  unfold ParseUint parseUintCore
  rw [if_neg (toString_nat_ne_empty n), hl, parseUintLoop_toDigits n h]
  rfl

theorem int64_eq_self (n : Nat) (h : n < 2 ^ 63) : int64 n = n := by
  unfold int64
  apply wrap64_eq_self
  unfold IsInt64
  omega

/-! ## Read in terms of reacquisition -/

theorem Read_of_prepare_error (me : File) (t : Transport) (rd : BodyRead) (len : Nat)
    (e : Error) (h : (me.prepareReader t).err = some e) :
    me.Read t rd len =
      { file := (me.prepareReader t).file, ret := [], err := some e,
        events := (me.prepareReader t).events } := by
  simp [File.Read, h]

theorem Read_of_prepare_ok (me : File) (t : Transport) (rd : BodyRead) (len : Nat)
    (body : Body) (h : (me.prepareReader t).err = none)
    (hb : (me.prepareReader t).file.r = some body) :
    me.Read t rd len =
      { file := { (me.prepareReader t).file with
                  off := wrap64 ((me.prepareReader t).file.off + int64 (rd body len).1.length),
                  rOff := wrap64 ((me.prepareReader t).file.rOff + int64 (rd body len).1.length),
                  r := some { body with pos := body.pos + (rd body len).1.length } },
        ret := (rd body len).1, err := (rd body len).2,
        events := (me.prepareReader t).events } := by
  simp [File.Read, h, hb]

theorem Read_events (me : File) (t : Transport) (rd : BodyRead) (len : Nat) :
    (me.Read t rd len).events = (me.prepareReader t).events := by
  unfold File.Read
  dsimp only
  split
  · rfl
  · split <;> rfl

/-- A stream that holds no body sends the request for its cursor as soon as
`http.NewRequest` lets it. -/
theorem prepareReader_sends (me : File) (t : Transport) (hr : me.r = none)
    (hnew : t.NewRequest "GET" me.url = none) :
    Event.sent (readRequest me.url me.off) ∈ (me.prepareReader t).events := by
  have hneed : me.needsRequest := Or.inl hr
  cases hdo : t.Do (readRequest me.url me.off) with
  | error e => rw [prepareReader_do_error me t e hneed hnew hdo]; simp
  | ok resp =>
    by_cases h206 : resp.StatusCode = 206
    · cases hcr : resp.ContentRange with
      | none => rw [prepareReader_206_unparsed me t resp hneed hnew hdo h206 hcr]; simp
      | some cr =>
        by_cases hf : cr.First = me.off
        · rw [prepareReader_206_accept me t resp cr hneed hnew hdo h206 hcr hf]; simp
        · rw [prepareReader_206_mismatch me t resp cr hneed hnew hdo h206 hcr hf]; simp
    · by_cases h200 : resp.StatusCode = 200
      · by_cases hoff : me.off = 0
        · by_cases hcl : resp.ContentLength = ""
          · rw [prepareReader_200_no_length me t resp hneed hnew hdo h200 hoff hcl]; simp
          · cases hp : ParseUint resp.ContentLength with
            | mk v oe =>
              cases oe with
              | none => rw [prepareReader_200_length me t resp v hneed hnew hdo h200 hoff hcl hp]; simp
              | some e =>
                rw [prepareReader_200_unparsed me t resp v e hneed hnew hdo h200 hoff hcl hp]; simp
        · rw [prepareReader_200_nonzero me t resp hneed hnew hdo h200 hoff]; simp
      · rw [prepareReader_other_status me t resp hneed hnew hdo h206 h200]; simp

/-- After a successful `prepareReader` the stream holds a body bound to the
cursor, so `Read` never calls `Read` on a nil `me.r`. -/
theorem prepareReader_ok_body (me : File) (t : Transport)
    (h : (me.prepareReader t).err = none) :
    (∃ b, (me.prepareReader t).file.r = some b) ∧
    (me.prepareReader t).file.rOff = (me.prepareReader t).file.off ∧
    (me.prepareReader t).file.off = me.off := by
  by_cases hneed : me.needsRequest
  · cases hnew : t.NewRequest "GET" me.url with
    | some e => rw [prepareReader_newRequest_error me t e hneed hnew] at h; cases h
    | none =>
      cases hdo : t.Do (readRequest me.url me.off) with
      | error e => rw [prepareReader_do_error me t e hneed hnew hdo] at h; cases h
      | ok resp =>
        by_cases h206 : resp.StatusCode = 206
        · cases hcr : resp.ContentRange with
          | none => rw [prepareReader_206_unparsed me t resp hneed hnew hdo h206 hcr] at h; cases h
          | some cr =>
            by_cases hf : cr.First = me.off
            · rw [prepareReader_206_accept me t resp cr hneed hnew hdo h206 hcr hf]; simp
            · rw [prepareReader_206_mismatch me t resp cr hneed hnew hdo h206 hcr hf] at h
              cases h
        · by_cases h200 : resp.StatusCode = 200
          · by_cases hoff : me.off = 0
            · by_cases hcl : resp.ContentLength = ""
              · rw [prepareReader_200_no_length me t resp hneed hnew hdo h200 hoff hcl]; simp
              · cases hp : ParseUint resp.ContentLength with
                | mk v oe =>
                  cases oe with
                  | none =>
                    rw [prepareReader_200_length me t resp v hneed hnew hdo h200 hoff hcl hp]
                    simp
                  | some e =>
                    rw [prepareReader_200_unparsed me t resp v e hneed hnew hdo h200 hoff hcl
                      hp] at h
                    cases h
            · rw [prepareReader_200_nonzero me t resp hneed hnew hdo h200 hoff] at h; cases h
          · rw [prepareReader_other_status me t resp hneed hnew hdo h206 h200] at h; cases h
  · unfold File.needsRequest at hneed
    have hr : me.r ≠ none := fun h => hneed (Or.inl h)
    have heq : me.off = me.rOff := by
      by_contra h; exact hneed (Or.inr h)
    obtain ⟨b, hb⟩ := Option.ne_none_iff_exists'.mp hr
    rw [prepareReader_reuse me t b hb heq]
    exact ⟨⟨b, hb⟩, heq.symm, rfl⟩

/-- `Read` returns the nil-dereference marker only if the body read itself
hands it over. -/
theorem Read_no_nilDereference (me : File) (t : Transport) (rd : BodyRead) (len : Nat)
    (ht : (me.prepareReader t).err ≠ some .nilDereference)
    (hrd : ∀ b n, (rd b n).2 ≠ some .nilDereference) :
    (me.Read t rd len).err ≠ some .nilDereference := by
  cases herr : (me.prepareReader t).err with
  | some e =>
    rw [Read_of_prepare_error me t rd len e herr]
    rw [herr] at ht
    exact ht
  | none =>
    obtain ⟨⟨b, hb⟩, _, _⟩ := prepareReader_ok_body me t herr
    rw [Read_of_prepare_ok me t rd len b herr hb]
    exact hrd b len

/-! ## Reacquisition: lengths, rejection, acceptance -/

/-- C6: when a Read has to issue a request, a 200 at cursor 0 whose
Content-Length is the decimal numeral of L (L < 2^63) leaves the stream with
length L; a 206 whose Content-Range parses to start F and total T is accepted
if and only if F is the cursor, and then the stream's length after the Read is
T, whatever it was before. -/
theorem C6_length_derivation (me : File) (t : Transport) (rd : BodyRead) (len : Nat)
    (resp : Response) (hneed : me.needsRequest)
    (hnew : t.NewRequest "GET" me.url = none)
    (hdo : t.Do (readRequest me.url me.off) = .ok resp) :
    (∀ L : Nat, L < 2 ^ 63 → me.off = 0 → resp.StatusCode = 200 →
        resp.ContentLength = toString L →
        (me.prepareReader t).err = none ∧ (me.Read t rd len).file.length = L) ∧
    (∀ F T : Int, resp.StatusCode = 206 → resp.ContentRange = some ⟨F, T⟩ →
        ((me.prepareReader t).err = none ↔ F = me.off) ∧
        (F = me.off → (me.Read t rd len).file.length = T)) := by
  constructor
  · intro L hL hoff hs hcl
    have hne : resp.ContentLength ≠ "" := by rw [hcl]; exact toString_nat_ne_empty L
    have hp : ParseUint resp.ContentLength = (L, none) := by
      rw [hcl]; exact ParseUint_toString L (by omega)
    have hprep := prepareReader_200_length me t resp L hneed hnew hdo hs hoff hne hp
    have herr : (me.prepareReader t).err = none := by rw [hprep]
    have hbody : (me.prepareReader t).file.r = some resp.Body := by rw [hprep]
    refine ⟨herr, ?_⟩
    rw [Read_of_prepare_ok me t rd len resp.Body herr hbody, hprep]
    exact int64_eq_self L hL
  · intro F T hs hcr
    by_cases hF : F = me.off
    · have hprep := prepareReader_206_accept me t resp ⟨F, T⟩ hneed hnew hdo hs hcr hF
      have herr : (me.prepareReader t).err = none := by rw [hprep]
      have hbody : (me.prepareReader t).file.r = some resp.Body := by rw [hprep]
      refine ⟨⟨fun _ => hF, fun _ => herr⟩, fun _ => ?_⟩
      rw [Read_of_prepare_ok me t rd len resp.Body herr hbody, hprep]
    · have hprep := prepareReader_206_mismatch me t resp ⟨F, T⟩ hneed hnew hdo hs hcr hF
      refine ⟨⟨fun h => ?_, fun h => absurd h hF⟩, fun h => absurd h hF⟩
      rw [hprep] at h
      simp at h

/-- C6 (witness): `Content-Length: 100` on a 200 at cursor 0 gives length 100,
and `Content-Range: bytes 50-149/500` on a 206 at cursor 50 gives length 500. -/
theorem C6_length_derivation_witness :
    (File.Read (Open "u")
      (answering { StatusCode := 200, Status := "200 OK", ContentRange := none,
                   ContentLength := "100", Body := { id := 1, pos := 0 } })
      atEOF 8).file.length = 100 ∧
    (File.Read { off := 50, r := none, rOff := 0, length := 7, url := "u" }
      (answering { StatusCode := 206, Status := "206 Partial Content",
                   ContentRange := some { First := 50, Length := 500 },
                   ContentLength := "100", Body := { id := 1, pos := 50 } })
      atEOF 8).file.length = 500 :=
  ⟨((C6_length_derivation (Open "u")
      (answering { StatusCode := 200, Status := "200 OK", ContentRange := none,
                   ContentLength := "100", Body := { id := 1, pos := 0 } })
      atEOF 8 _ (Or.inl rfl) rfl rfl).1 100 (by decide) rfl rfl rfl).2,
   ((C6_length_derivation { off := 50, r := none, rOff := 0, length := 7, url := "u" }
      (answering { StatusCode := 206, Status := "206 Partial Content",
                   ContentRange := some { First := 50, Length := 500 },
                   ContentLength := "100", Body := { id := 1, pos := 50 } })
      atEOF 8 _ (Or.inl rfl) rfl rfl).2 50 500 rfl rfl).2 rfl⟩

/-- C7: when Read must issue a request and the response is a 206 whose
Content-Range is unparseable or starts elsewhere than the cursor, Read returns
no bytes and the bad-response error, the stream holds no body afterwards,
cursor, bound position, length and url are what they were, and the next Read
sends a request for the same cursor again. -/
theorem C7_mismatch_rejection (me : File) (t : Transport) (rd : BodyRead) (len : Nat)
    (resp : Response) (hneed : me.needsRequest)
    (hnew : t.NewRequest "GET" me.url = none)
    (hdo : t.Do (readRequest me.url me.off) = .ok resp)
    (hs : resp.StatusCode = 206)
    (hbad : resp.ContentRange = none ∨
      ∃ cr, resp.ContentRange = some cr ∧ cr.First ≠ me.off) :
    (me.Read t rd len).ret = [] ∧
    (me.Read t rd len).err = some (.errorsNew "bad response") ∧
    (me.Read t rd len).file.r = none ∧
    (me.Read t rd len).file.off = me.off ∧
    (me.Read t rd len).file.rOff = me.rOff ∧
    (me.Read t rd len).file.length = me.length ∧
    (me.Read t rd len).file.url = me.url ∧
    (∀ (t2 : Transport) (rd2 : BodyRead) (len2 : Nat),
      t2.NewRequest "GET" me.url = none →
      Event.sent (readRequest me.url me.off) ∈
        ((me.Read t rd len).file.Read t2 rd2 len2).events) := by
  have hprep : me.prepareReader t =
      { file := { me with r := none }, ret := (), err := some (.errorsNew "bad response"),
        events := me.staleClose ++
          [.sent (readRequest me.url me.off), .received resp.Body, .closed resp.Body] } := by
    rcases hbad with hcr | ⟨cr, hcr, hne⟩
    · exact prepareReader_206_unparsed me t resp hneed hnew hdo hs hcr
    · exact prepareReader_206_mismatch me t resp cr hneed hnew hdo hs hcr hne
  have herr : (me.prepareReader t).err = some (.errorsNew "bad response") := by rw [hprep]
  have hread := Read_of_prepare_error me t rd len _ herr
  rw [hprep] at hread
  rw [hread]
  refine ⟨rfl, rfl, rfl, rfl, rfl, rfl, rfl, ?_⟩
  intro t2 rd2 len2 hnew2
  rw [Read_events]
  exact prepareReader_sends { me with r := none } t2 rfl hnew2

/-- C7 (witness): at cursor 50 a 206 that declares start 40 is refused and the
stream is left without a body, its cursor still 50. -/
theorem C7_mismatch_rejection_witness :
    (File.Read { off := 50, r := none, rOff := 0, length := 7, url := "u" }
      (answering { StatusCode := 206, Status := "206 Partial Content",
                   ContentRange := some { First := 40, Length := 500 },
                   ContentLength := "", Body := { id := 1, pos := 40 } })
      atEOF 8).err = some (.errorsNew "bad response") ∧
    (File.Read { off := 50, r := none, rOff := 0, length := 7, url := "u" }
      (answering { StatusCode := 206, Status := "206 Partial Content",
                   ContentRange := some { First := 40, Length := 500 },
                   ContentLength := "", Body := { id := 1, pos := 40 } })
      atEOF 8).file = { off := 50, r := none, rOff := 0, length := 7, url := "u" } :=
  ⟨(C7_mismatch_rejection { off := 50, r := none, rOff := 0, length := 7, url := "u" }
      (answering { StatusCode := 206, Status := "206 Partial Content",
                   ContentRange := some { First := 40, Length := 500 },
                   ContentLength := "", Body := { id := 1, pos := 40 } })
      atEOF 8 _ (Or.inl rfl) rfl rfl rfl (Or.inr ⟨_, rfl, by decide⟩)).2.1,
   by decide⟩

/-- C8: when `prepareReader` issues a request and the transport returns a
response, it succeeds exactly when the status is 206 with a parseable
Content-Range whose start is the cursor, or the status is 200, the cursor is 0
and Content-Length is absent or read by `ParseUint` without error. On success
the response body is adopted and the bound position is the cursor. A 200 at a
non-zero cursor fails with bad response, a status other than 200 and 206 fails
with `errors.New` of the status text, and after every failure no body is held. -/
theorem C8_accept_iff (me : File) (t : Transport) (resp : Response)
    (hneed : me.needsRequest)
    (hnew : t.NewRequest "GET" me.url = none)
    (hdo : t.Do (readRequest me.url me.off) = .ok resp) :
    ((me.prepareReader t).err = none ↔
      ((resp.StatusCode = 206 ∧ ∃ cr, resp.ContentRange = some cr ∧ cr.First = me.off) ∨
       (resp.StatusCode = 200 ∧ me.off = 0 ∧
          (resp.ContentLength = "" ∨ (ParseUint resp.ContentLength).2 = none)))) ∧
    ((me.prepareReader t).err = none →
      (me.prepareReader t).file.r = some resp.Body ∧
      (me.prepareReader t).file.rOff = me.off ∧
      (me.prepareReader t).file.off = me.off) ∧
    (resp.StatusCode = 200 → me.off ≠ 0 →
      (me.prepareReader t).err = some (.errorsNew "bad response")) ∧
    (resp.StatusCode ≠ 200 → resp.StatusCode ≠ 206 →
      (me.prepareReader t).err = some (.errorsNew resp.Status)) ∧
    ((me.prepareReader t).err ≠ none → (me.prepareReader t).file.r = none) := by
  by_cases h206 : resp.StatusCode = 206
  · have hn200 : resp.StatusCode ≠ 200 := by rw [h206]; decide
    cases hcr : resp.ContentRange with
    | none =>
      rw [prepareReader_206_unparsed me t resp hneed hnew hdo h206 hcr]
      simp [h206]
    | some cr =>
      by_cases hf : cr.First = me.off
      · rw [prepareReader_206_accept me t resp cr hneed hnew hdo h206 hcr hf]
        simp [h206, hf]
      · rw [prepareReader_206_mismatch me t resp cr hneed hnew hdo h206 hcr hf]
        simp [h206, hf]
  · by_cases h200 : resp.StatusCode = 200
    · by_cases hoff : me.off = 0
      · by_cases hcl : resp.ContentLength = ""
        · rw [prepareReader_200_no_length me t resp hneed hnew hdo h200 hoff hcl]
          simp [h200, hoff, hcl]
        · cases hp : ParseUint resp.ContentLength with
          | mk v oe =>
            cases oe with
            | none =>
              rw [prepareReader_200_length me t resp v hneed hnew hdo h200 hoff hcl hp]
              simp [h200, hoff]
            | some e =>
              rw [prepareReader_200_unparsed me t resp v e hneed hnew hdo h200 hoff hcl hp]
              simp [h200, hoff, hcl]
      · rw [prepareReader_200_nonzero me t resp hneed hnew hdo h200 hoff]
        simp [h200, hoff]
    · rw [prepareReader_other_status me t resp hneed hnew hdo h206 h200]
      simp [h206, h200]

/-- C8 (witness): a 200 answered at cursor 5 is refused with bad response, and
a 503 is refused with its status text. -/
theorem C8_accept_iff_witness :
    (File.prepareReader { off := 5, r := none, rOff := 0, length := 0, url := "u" }
      (answering { StatusCode := 200, Status := "200 OK", ContentRange := none,
                   ContentLength := "9", Body := { id := 1, pos := 0 } })).err
      = some (.errorsNew "bad response") ∧
    (File.prepareReader { off := 5, r := none, rOff := 0, length := 0, url := "u" }
      (answering { StatusCode := 503, Status := "503 Service Unavailable",
                   ContentRange := none, ContentLength := "",
                   Body := { id := 1, pos := 0 } })).err
      = some (.errorsNew "503 Service Unavailable") :=
  ⟨(C8_accept_iff { off := 5, r := none, rOff := 0, length := 0, url := "u" }
      (answering { StatusCode := 200, Status := "200 OK", ContentRange := none,
                   ContentLength := "9", Body := { id := 1, pos := 0 } })
      _ (Or.inl rfl) rfl rfl).2.2.1 rfl (by decide),
   (C8_accept_iff { off := 5, r := none, rOff := 0, length := 0, url := "u" }
      (answering { StatusCode := 503, Status := "503 Service Unavailable",
                   ContentRange := none, ContentLength := "",
                   Body := { id := 1, pos := 0 } })
      _ (Or.inl rfl) rfl rfl).2.2.2.1 (by decide) (by decide)⟩

/-! ## Write -/

/-- C9 (counterexample): with the cursor at the largest `int64` value, a
one-byte Write answered 206 leaves the cursor at the smallest `int64` value and
not at cursor + len(b). -/
theorem C9_write_overflow :
    IsInt64 (2 ^ 63 - 1) ∧
    (File.Write { off := 2 ^ 63 - 1, r := none, rOff := 0, length := 0, url := "u" }
      (answering { StatusCode := 206, Status := "206 Partial Content", ContentRange := none,
                   ContentLength := "", Body := { id := 1, pos := 0 } })
      [7]).err = none ∧
    (File.Write { off := 2 ^ 63 - 1, r := none, rOff := 0, length := 0, url := "u" }
      (answering { StatusCode := 206, Status := "206 Partial Content", ContentRange := none,
                   ContentLength := "", Body := { id := 1, pos := 0 } })
      [7]).file.off = -(2 ^ 63) ∧
    (File.Write { off := 2 ^ 63 - 1, r := none, rOff := 0, length := 0, url := "u" }
      (answering { StatusCode := 206, Status := "206 Partial Content", ContentRange := none,
                   ContentLength := "", Body := { id := 1, pos := 0 } })
      [7]).file.off ≠ (2 ^ 63 - 1) + ([7] : List Byte).length := by
  decide

/-- C9 (amended): if the PATCH response has status 206, Write returns
n = len(b) with no error and the cursor after the call is the cursor before
plus len(b) reduced to a signed 64-bit value, which is cursor + len(b) itself
whenever that sum is an `int64`; if the response has any other status, or the
transport or `http.NewRequest` fails, Write returns n = 0 with an error (for a
response, `errors.New` of the status text) and the stream is unchanged. -/
theorem C9_write_round_trip (me : File) (t : Transport) (b : List Byte) :
    (∀ resp, t.NewRequest "PATCH" me.url = none →
      t.Do (writeRequest me.url me.off b) = .ok resp → resp.StatusCode = 206 →
        (me.Write t b).ret = b.length ∧ (me.Write t b).err = none ∧
        (me.Write t b).file.off = wrap64 (me.off + int64 b.length) ∧
        (b.length < 2 ^ 63 → IsInt64 (me.off + b.length) →
          (me.Write t b).file.off = me.off + b.length)) ∧
    (∀ resp, t.NewRequest "PATCH" me.url = none →
      t.Do (writeRequest me.url me.off b) = .ok resp → resp.StatusCode ≠ 206 →
        (me.Write t b).ret = 0 ∧ (me.Write t b).err = some (.errorsNew resp.Status) ∧
        (me.Write t b).file = me) ∧
    (∀ e, t.NewRequest "PATCH" me.url = none →
      t.Do (writeRequest me.url me.off b) = .error e →
        (me.Write t b).ret = 0 ∧ (me.Write t b).err = some e ∧ (me.Write t b).file = me) ∧
    (∀ e, t.NewRequest "PATCH" me.url = some e →
        (me.Write t b).ret = 0 ∧ (me.Write t b).err = some e ∧ (me.Write t b).file = me) := by
  refine ⟨?_, ?_, ?_, ?_⟩
  · intro resp hnew hdo hs
    refine ⟨?_, ?_, ?_, ?_⟩
    · simp [File.Write, hnew, hdo, hs]
    · simp [File.Write, hnew, hdo, hs]
    · simp [File.Write, hnew, hdo, hs]
    · intro hlen hsum
      simp [File.Write, hnew, hdo, hs, int64_eq_self b.length hlen, wrap64_eq_self hsum]
  · intro resp hnew hdo hs
    simp [File.Write, hnew, hdo, hs]
  · intro e hnew hdo
    simp [File.Write, hnew, hdo]
  · intro e hnew
    simp [File.Write, hnew]

/-- C9 (witness): three bytes written at cursor 10 and answered 206 move the
cursor to 13; answered 200 they leave it at 10. -/
theorem C9_write_round_trip_witness :
    (File.Write { off := 10, r := none, rOff := 0, length := 0, url := "u" }
      (answering { StatusCode := 206, Status := "206 Partial Content", ContentRange := none,
                   ContentLength := "", Body := { id := 1, pos := 0 } })
      [1, 2, 3]).file.off = 13 ∧
    (File.Write { off := 10, r := none, rOff := 0, length := 0, url := "u" }
      (answering { StatusCode := 200, Status := "200 OK", ContentRange := none,
                   ContentLength := "", Body := { id := 1, pos := 0 } })
      [1, 2, 3]).file.off = 10 :=
  ⟨((C9_write_round_trip { off := 10, r := none, rOff := 0, length := 0, url := "u" }
      (answering { StatusCode := 206, Status := "206 Partial Content", ContentRange := none,
                   ContentLength := "", Body := { id := 1, pos := 0 } })
      [1, 2, 3]).1 _ rfl rfl rfl).2.2.2 (by decide) (by decide),
   by decide⟩

/-! ## Length discovery -/

/-- C10: if the plain GET of `GetLength` is answered with status 404, the
result is the zero length and `ErrNotFound`, whatever the rest of the response
is; for every other status the result is `instanceLength` of the response. -/
theorem C10_getLength (t : Transport) (url : String) (resp : Response)
    (hnew : t.NewRequest "GET" url = none)
    (hdo : t.Do (plainGet url) = .ok resp) :
    (resp.StatusCode = 404 →
      (GetLength t url).ret = 0 ∧ (GetLength t url).err = some ErrNotFound) ∧
    (resp.StatusCode ≠ 404 →
      ((GetLength t url).ret, (GetLength t url).err) = instanceLength resp) := by
  constructor
  · intro hs
    simp [GetLength, hnew, hdo, hs]
  · intro hs
    simp [GetLength, hnew, hdo, hs]

/-- C10 (witness): a 404 that carries a Content-Length all the same yields
`ErrNotFound`, and a 200 with `Content-Length: 42` yields 42. -/
theorem C10_getLength_witness :
    (GetLength
      (answering { StatusCode := 404, Status := "404 Not Found", ContentRange := none,
                   ContentLength := "42", Body := { id := 1, pos := 0 } })
      "u").err = some ErrNotFound ∧
    GetLength
      (answering { StatusCode := 200, Status := "200 OK", ContentRange := none,
                   ContentLength := "42", Body := { id := 1, pos := 0 } })
      "u" =
      { ret := 42, err := none,
        events := [.sent (plainGet "u"), .received { id := 1, pos := 0 },
                   .closed { id := 1, pos := 0 }] } :=
  ⟨((C10_getLength
      (answering { StatusCode := 404, Status := "404 Not Found", ContentRange := none,
                   ContentLength := "42", Body := { id := 1, pos := 0 } })
      "u" _ rfl rfl).1 rfl).2,
   by decide⟩

/-! ## Reading from a well-behaved server -/

theorem requests_append (xs ys : List Event) : requests (xs ++ ys) = requests xs ++ requests ys := by
  induction xs with
  | nil => rfl
  | cons x xs ih => cases x <;> simp [requests, ih]

theorem requests_staleClose (me : File) : requests me.staleClose = [] := by
  unfold File.staleClose
  split
  · split <;> rfl
  · rfl

/-- Against a well-behaved server, reacquisition in a state that needs a
request sends exactly the request for the cursor; it adopts a body that stands
at the cursor, unless the response is a 200 whose Content-Length cannot be
read, in which case the stream is left without a body. -/
theorem prepareReader_wellBehaved (me : File) (t : Transport)
    (hwb : WellBehaved me.url t) (hneed : me.needsRequest) (h0 : 0 ≤ me.off) :
    (me.prepareReader t).file.off = me.off ∧
    (me.prepareReader t).file.url = me.url ∧
    requests (me.prepareReader t).events = [readRequest me.url me.off] ∧
    (((me.prepareReader t).err = none ∧
        (me.prepareReader t).file.rOff = me.off ∧
        ∃ b, (me.prepareReader t).file.r = some b ∧ b.pos = me.off.toNat) ∨
     ((∃ e, (me.prepareReader t).err = some e) ∧ (me.prepareReader t).file.r = none ∧
        ¬ ReadableLength me.url t)) := by
  obtain ⟨hnew, hall⟩ := hwb
  obtain ⟨resp, hdo, hpos, hcase⟩ := hall me.off h0
  rcases hcase with ⟨hs, T, hcr⟩ | ⟨hoff, hs⟩
  · rw [prepareReader_206_accept me t resp ⟨me.off, T⟩ hneed hnew hdo hs hcr rfl]
    simp [requests_append, requests_staleClose, requests, hpos]
  · by_cases hcl : resp.ContentLength = ""
    · rw [prepareReader_200_no_length me t resp hneed hnew hdo hs hoff hcl]
      simp [requests_append, requests_staleClose, requests, hpos]
    · cases hp : ParseUint resp.ContentLength with
      | mk v oe =>
        cases oe with
        | none =>
          rw [prepareReader_200_length me t resp v hneed hnew hdo hs hoff hcl hp]
          simp [requests_append, requests_staleClose, requests, hpos]
        | some e =>
          rw [prepareReader_200_unparsed me t resp v e hneed hnew hdo hs hoff hcl hp]
          refine ⟨rfl, rfl, by simp [requests_append, requests_staleClose, requests], Or.inr ?_⟩
          refine ⟨⟨e, rfl⟩, rfl, fun hrl => ?_⟩
          rw [hoff] at hdo
          rcases hrl resp hdo hs with h | h
          · exact hcl h
          · rw [hp] at h; cases h

/-- One Read against a well-behaved server, from a stream that has reached
`p`: the bytes returned are those of `D` from `p` on, no more than the buffer
holds, and the stream has reached `p` plus their number; when the lengths the
server declares are readable, the buffer is not empty and `D` has bytes left,
at least one byte is returned. -/
theorem Read_wellBehaved (D : List Byte) (me : File) (t : Transport) (rd : BodyRead)
    (len p : Nat) (hwb : WellBehaved me.url t) (hy : YieldsFrom D rd) (hat : SeqAt me p) :
    (me.Read t rd len).ret = (D.drop p).take (me.Read t rd len).ret.length ∧
    SeqAt (me.Read t rd len).file (p + (me.Read t rd len).ret.length) ∧
    (me.Read t rd len).file.url = me.url ∧
    (me.Read t rd len).ret.length ≤ len ∧
    (ReadableLength me.url t → 0 < len → p < D.length → (me.Read t rd len).ret ≠ []) := by
  -- either the read is served from a body that stands at `p`, or reacquisition fails
  have key : (∃ b, (me.prepareReader t).err = none ∧ (me.prepareReader t).file.r = some b ∧
      b.pos = p ∧ (me.prepareReader t).file.off = (me.prepareReader t).file.rOff ∧
      (me.prepareReader t).file.url = me.url) ∨
      ((∃ e, (me.prepareReader t).err = some e) ∧ (me.prepareReader t).file.r = none ∧
        (me.prepareReader t).file.off = (p : Int) ∧ (me.prepareReader t).file.url = me.url ∧
        ¬ ReadableLength me.url t) := by
    by_cases hneed : me.needsRequest
    · have hoff : me.off = (p : Int) := by
        rcases hat with ⟨b, hr, heq, _⟩ | ⟨hoff, _⟩
        · rcases hneed with h | h
          · rw [hr] at h; cases h
          · exact absurd heq h
        · exact hoff
      obtain ⟨ho, hu, _, hcase⟩ := prepareReader_wellBehaved me t hwb hneed (by omega)
      rcases hcase with ⟨herr, hro, b, hb, hpos⟩ | ⟨herr, hr, hnr⟩
      · left
        refine ⟨b, herr, hb, ?_, by rw [ho, hro], hu⟩
        rw [hpos, hoff]; simp
      · right
        exact ⟨herr, hr, by rw [ho, hoff], hu, hnr⟩
    · left
      unfold File.needsRequest at hneed
      have hr : me.r ≠ none := fun h => hneed (Or.inl h)
      have heq : me.off = me.rOff := by
        by_contra h; exact hneed (Or.inr h)
      obtain ⟨b, hb⟩ := Option.ne_none_iff_exists'.mp hr
      rw [prepareReader_reuse me t b hb heq]
      refine ⟨b, rfl, hb, ?_, heq, rfl⟩
      rcases hat with ⟨b2, hr2, _, hp2⟩ | ⟨hoff, hin⟩
      · rw [hb] at hr2; cases hr2; exact hp2
      · have := hin b hb
        omega
  rcases key with ⟨b, herr, hb, hpos, heq, hu⟩ | ⟨⟨e, herr⟩, hr, hoff, hu, hnr⟩
  · obtain ⟨hpre, hle, hne⟩ := hy b len
    rw [Read_of_prepare_ok me t rd len b herr hb]
    subst hpos
    refine ⟨hpre, ?_, hu, hle, fun _ => hne⟩
    left
    exact ⟨_, rfl, by simp [heq], rfl⟩
  · rw [Read_of_prepare_error me t rd len e herr]
    refine ⟨by simp, ?_, hu, by simp, fun h => absurd h hnr⟩
    right
    refine ⟨by simpa using hoff, ?_⟩
    intro b hb
    rw [hr] at hb
    cases hb

theorem take_add_drop (D : List Byte) (p n m : Nat) :
    (D.drop p).take (n + m) = (D.drop p).take n ++ (D.drop (p + n)).take m := by
  rw [List.take_add, List.drop_drop]

/-- A sequence of Reads against well-behaved servers, from a stream that has
reached `p`, returns the bytes of `D` from `p` on. -/
theorem readAll_wellBehaved (D : List Byte) (calls : List ReadCall) :
    ∀ (me : File) (p : Nat), SeqAt me p →
      (∀ c ∈ calls, WellBehaved me.url c.t ∧ YieldsFrom D c.rd) →
      (readAll me calls).2 = (D.drop p).take (readAll me calls).2.length := by
  induction calls with
  | nil => intro me p _ _; simp [readAll]
  | cons c cs ih =>
    intro me p hat hall
    obtain ⟨hwb, hy⟩ := hall c (List.mem_cons_self c cs)
    obtain ⟨hret, hat2, hu, _, _⟩ := Read_wellBehaved D me c.t c.rd c.len p hwb hy hat
    have hrest := ih (me.Read c.t c.rd c.len).file (p + (me.Read c.t c.rd c.len).ret.length) hat2
      (fun c2 hc2 => by rw [hu]; exact hall c2 (List.mem_cons_of_mem c hc2))
    simp only [readAll, List.length_append]
    rw [take_add_drop, ← hret, ← hrest]

/-- With readable lengths and buffers that are not empty, every Read of the
sequence returns at least one byte until `D` is exhausted. -/
theorem readAll_progress (D : List Byte) (calls : List ReadCall) :
    ∀ (me : File) (p : Nat), SeqAt me p →
      (∀ c ∈ calls, WellBehaved me.url c.t ∧ YieldsFrom D c.rd) →
      (∀ c ∈ calls, ReadableLength me.url c.t ∧ 0 < c.len) →
      min calls.length (D.length - p) ≤ (readAll me calls).2.length := by
  induction calls with
  | nil => intro me p _ _ _; simp
  | cons c cs ih =>
    intro me p hat hall hgood
    obtain ⟨hwb, hy⟩ := hall c (List.mem_cons_self c cs)
    obtain ⟨hrl, hlen⟩ := hgood c (List.mem_cons_self c cs)
    obtain ⟨hret, hat2, hu, _, hne⟩ := Read_wellBehaved D me c.t c.rd c.len p hwb hy hat
    have hrest := ih (me.Read c.t c.rd c.len).file (p + (me.Read c.t c.rd c.len).ret.length) hat2
      (fun c2 hc2 => by rw [hu]; exact hall c2 (List.mem_cons_of_mem c hc2))
      (fun c2 hc2 => by rw [hu]; exact hgood c2 (List.mem_cons_of_mem c hc2))
    have hn : (me.Read c.t c.rd c.len).ret.length ≤ D.length - p := by
      have h := congrArg List.length hret
      rw [List.length_take, List.length_drop] at h
      omega
    have hpos : p < D.length → 0 < (me.Read c.t c.rd c.len).ret.length := fun hp =>
      List.length_pos.mpr (hne hrl hlen hp)
    simp only [readAll, List.length_append, List.length_cons]
    by_cases hp : p < D.length
    · have := hpos hp
      omega
    · omega

/-! ## The executable server is well-behaved -/

theorem server_wellBehaved (D : List Byte) (use200 : Bool) (id : Nat) (url : String) :
    WellBehaved url (server D use200 id) := by
  refine ⟨rfl, ?_⟩
  intro c hc
  by_cases h0 : c = 0
  · subst h0
    cases use200 with
    | true => exact ⟨_, rfl, rfl, Or.inr ⟨rfl, rfl⟩⟩
    | false => exact ⟨_, rfl, rfl, Or.inl ⟨rfl, _, rfl⟩⟩
  · refine ⟨{ StatusCode := 206, Status := "206 Partial Content",
              ContentRange := some { First := c, Length := D.length },
              ContentLength := "", Body := { id := id, pos := c.toNat } }, ?_, rfl,
            Or.inl ⟨rfl, _, rfl⟩⟩
    simp [server, readRequest, h0]

theorem server_readableLength (D : List Byte) (hD : D.length < 2 ^ 64) (use200 : Bool)
    (id : Nat) (url : String) : ReadableLength url (server D use200 id) := by
  intro resp hdo hs
  cases use200 with
  | true =>
    have h : resp.ContentLength = toString D.length := by
      simp only [server, readRequest] at hdo
      cases hdo
      rfl
    right
    rw [h, ParseUint_toString D.length hD]
  | false =>
    have h : resp.StatusCode = 206 := by
      simp only [server, readRequest] at hdo
      cases hdo
      rfl
    rw [h] at hs
    cases hs

theorem bodyOf_yields (D : List Byte) (pick : Nat) : YieldsFrom D (bodyOf D pick) := by
  intro body len
  unfold bodyOf
  by_cases ha : min len (D.length - body.pos) = 0
  · simp only [ha, if_true]
    refine ⟨by simp, by simp, ?_⟩
    intro h1 h2
    omega
  · simp only [ha, if_false]
    have hlt : pick % min len (D.length - body.pos) < min len (D.length - body.pos) :=
      Nat.mod_lt _ (by omega)
    have hlen : ((D.drop body.pos).take (pick % min len (D.length - body.pos) + 1)).length
        = pick % min len (D.length - body.pos) + 1 := by
      rw [List.length_take, List.length_drop]
      omega
    refine ⟨?_, ?_, ?_⟩
    · rw [hlen]
    · rw [hlen]; omega
    · intro _ _ h
      have := congrArg List.length h
      rw [hlen] at this
      simp at this

/-! ## Sequential read, and seek followed by read -/

/-- C1: against well-behaved servers for `D`, from a stream whose cursor is
c0 >= 0 (the body it may hold standing where it is bound to), the bytes a
sequence of Read calls returns concatenate to D[c0 .. c0 + their number],
whatever the buffer sizes and whatever part of what is available each body
read returns. Moreover, when the Content-Length of every 200 is readable and
no buffer is empty, each Read returns at least one byte until `D` is
exhausted. -/
theorem C1_sequential_read (D : List Byte) (me : File) (calls : List ReadCall)
    (h0 : 0 ≤ me.off) (hin : me.bodyInPlace)
    (hall : ∀ c ∈ calls, WellBehaved me.url c.t ∧ YieldsFrom D c.rd) :
    (readAll me calls).2 = (D.drop me.off.toNat).take (readAll me calls).2.length ∧
    ((∀ c ∈ calls, ReadableLength me.url c.t ∧ 0 < c.len) →
      min calls.length (D.length - me.off.toNat) ≤ (readAll me calls).2.length) := by
  have hat : SeqAt me me.off.toNat := Or.inr ⟨by omega, hin⟩
  exact ⟨readAll_wellBehaved D calls me me.off.toNat hat hall,
    readAll_progress D calls me me.off.toNat hat hall⟩

/-- C1 (witness): two reads of a five-byte resource from cursor 1, the first
returning one byte and the second two, give bytes 1 to 3 of the resource, and
at least one byte per read. -/
theorem C1_sequential_read_witness :
    (readAll { off := 1, r := none, rOff := 0, length := 0, url := "u" } twoReads).2
      = (fiveBytes.drop 1).take
          (readAll { off := 1, r := none, rOff := 0, length := 0, url := "u" } twoReads).2.length ∧
    min twoReads.length (fiveBytes.length - 1) ≤
      (readAll { off := 1, r := none, rOff := 0, length := 0, url := "u" } twoReads).2.length ∧
    (readAll { off := 1, r := none, rOff := 0, length := 0, url := "u" } twoReads).2
      = [20, 30, 40] :=
  have h := C1_sequential_read fiveBytes
      { off := 1, r := none, rOff := 0, length := 0, url := "u" }
      twoReads (by decide) (by intro b hb; cases hb)
      (by
        intro c hc
        simp only [twoReads, List.mem_cons, List.mem_singleton, List.not_mem_nil, or_false] at hc
        rcases hc with rfl | rfl
        · exact ⟨server_wellBehaved fiveBytes false 1 "u", bodyOf_yields fiveBytes 0⟩
        · exact ⟨server_wellBehaved fiveBytes true 2 "u", bodyOf_yields fiveBytes 1⟩)
  ⟨h.1,
   h.2 (by
        intro c hc
        simp only [twoReads, List.mem_cons, List.mem_singleton, List.not_mem_nil, or_false] at hc
        rcases hc with rfl | rfl
        · exact ⟨server_readableLength fiveBytes (by decide) false 1 "u", by decide⟩
        · exact ⟨server_readableLength fiveBytes (by decide) true 2 "u", by decide⟩),
   by decide⟩

/-- C2: against a well-behaved server for `D`, from every stream state whose
held body (if any) stands where it is bound to and for every k >= 0 (beyond
len(D) there is nothing to return), `Seek(k, start)` followed by Read returns
bytes of `D` that start at offset k (at least one when the Content-Length of a
200 is readable, the buffer is not empty and k < len(D)); the Read sends
exactly one request, the GET for offset k, when no body is held or the held
body is bound to another position than k, and does nothing to the outside
world, reading from the held body, when a body is held and bound to k. -/
theorem C2_seek_then_read (D : List Byte) (me : File) (t : Transport) (rd : BodyRead)
    (len : Nat) (k : Int) (hk0 : 0 ≤ k) (hin : me.bodyInPlace)
    (hwb : WellBehaved me.url t) (hy : YieldsFrom D rd) :
    (seekRead me k t rd len).ret = (D.drop k.toNat).take (seekRead me k t rd len).ret.length ∧
    (ReadableLength me.url t → 0 < len → k < D.length → (seekRead me k t rd len).ret ≠ []) ∧
    ((me.r = none ∨ me.rOff ≠ k) →
      requests (seekRead me k t rd len).events = [readRequest me.url k]) ∧
    (∀ b, me.r = some b → me.rOff = k →
      (seekRead me k t rd len).events = [] ∧
      ((me.Seek k SEEK_SET).file.prepareReader t).file.r = some b ∧
      (seekRead me k t rd len).file.r =
        some { b with pos := b.pos + (seekRead me k t rd len).ret.length }) := by
  have hseek : (me.Seek k SEEK_SET).file = { me with off := k } := by
    simp [File.Seek, SEEK_SET]
  have hat : SeqAt { me with off := k } k.toNat := by
    right
    exact ⟨by simp; omega, hin⟩
  unfold seekRead
  rw [hseek]
  obtain ⟨hret, _, _, _, hne⟩ :=
    Read_wellBehaved D { me with off := k } t rd len k.toNat hwb hy hat
  refine ⟨hret, fun hrl hl hk => hne hrl hl (by omega), ?_, ?_⟩
  · intro hcase
    have hneed : File.needsRequest { me with off := k } := by
      rcases hcase with h | h
      · exact Or.inl h
      · exact Or.inr (fun h2 => h h2.symm)
    rw [Read_events]
    exact (prepareReader_wellBehaved { me with off := k } t hwb hneed hk0).2.2.1
  · intro b hb hro
    have hprep := prepareReader_reuse { me with off := k } t b hb hro.symm
    refine ⟨?_, ?_, ?_⟩
    · rw [Read_events, hprep]
    · rw [hprep]; exact hb
    · rw [Read_of_prepare_ok { me with off := k } t rd len b (by rw [hprep]) (by rw [hprep]; exact hb)]

/-- C2 (witness): on a five-byte resource, a stream whose body stands at 1
and that seeks to 3 sends one GET with `Range: bytes=3-` and reads bytes 3 and
4; seeking to 1 instead it sends nothing and reads from the held body. -/
theorem C2_seek_then_read_witness :
    requests (seekRead { off := 1, r := some { id := 7, pos := 1 }, rOff := 1, length := 5,
                         url := "u" } 3 (server fiveBytes true 8) (bodyOf fiveBytes 1) 4).events
      = [readRequest "u" 3] ∧
    (seekRead { off := 1, r := some { id := 7, pos := 1 }, rOff := 1, length := 5,
                url := "u" } 3 (server fiveBytes true 8) (bodyOf fiveBytes 1) 4).ret
      = [40, 50] ∧
    (seekRead { off := 4, r := some { id := 7, pos := 1 }, rOff := 1, length := 5,
                url := "u" } 1 (server fiveBytes true 8) (bodyOf fiveBytes 1) 4).events
      = [] ∧
    (seekRead { off := 4, r := some { id := 7, pos := 1 }, rOff := 1, length := 5,
                url := "u" } 1 (server fiveBytes true 8) (bodyOf fiveBytes 1) 4).ret
      = [20, 30] :=
  ⟨(C2_seek_then_read fiveBytes
      { off := 1, r := some { id := 7, pos := 1 }, rOff := 1, length := 5, url := "u" }
      (server fiveBytes true 8) (bodyOf fiveBytes 1) 4 3 (by decide)
      (by intro b hb; cases hb; rfl)
      (server_wellBehaved fiveBytes true 8 "u") (bodyOf_yields fiveBytes 1)).2.2.1
      (Or.inr (by decide)),
   by decide,
   ((C2_seek_then_read fiveBytes
      { off := 4, r := some { id := 7, pos := 1 }, rOff := 1, length := 5, url := "u" }
      (server fiveBytes true 8) (bodyOf fiveBytes 1) 4 1 (by decide)
      (by intro b hb; cases hb; rfl)
      (server_wellBehaved fiveBytes true 8 "u") (bodyOf_yields fiveBytes 1)).2.2.2
      _ rfl rfl).1,
   by decide⟩

/-! ## Close and Seek leave the rest alone -/

/-- Seek sends nothing and changes nothing but the cursor. -/
theorem Seek_frame (me : File) (offset whence : Int) :
    (me.Seek offset whence).events = [] ∧
    (me.Seek offset whence).file.r = me.r ∧
    (me.Seek offset whence).file.rOff = me.rOff ∧
    (me.Seek offset whence).file.length = me.length ∧
    (me.Seek offset whence).file.url = me.url ∧
    ((me.Seek offset whence).err ≠ none → (me.Seek offset whence).file = me) := by
  unfold File.Seek
  split_ifs <;> simp

/-- C12: for every stream state Close returns no error; afterwards the url is
empty and no body is held, while cursor, bound position and length are
unchanged; a second Close also returns no error, closes nothing and leaves the
state exactly as the first call left it. -/
theorem C12_close_idempotent (me : File) :
    me.Close.err = none ∧
    me.Close.file.url = "" ∧ me.Close.file.r = none ∧
    me.Close.file.off = me.off ∧ me.Close.file.rOff = me.rOff ∧
    me.Close.file.length = me.length ∧
    me.Close.file.Close.err = none ∧
    me.Close.file.Close.events = [] ∧
    me.Close.file.Close.file = me.Close.file := by
  simp [File.Close]

/-- C14: Seek does nothing to the outside world and leaves body, bound
position, length and url as they were; a Seek that fails leaves the whole
stream as it was. -/
theorem C14_seek_frame (me : File) (offset whence : Int) :
    (me.Seek offset whence).events = [] ∧
    (me.Seek offset whence).file.r = me.r ∧
    (me.Seek offset whence).file.rOff = me.rOff ∧
    (me.Seek offset whence).file.length = me.length ∧
    (me.Seek offset whence).file.url = me.url ∧
    ((me.Seek offset whence).err ≠ none → (me.Seek offset whence).file = me) := by
  unfold File.Seek
  split_ifs <;> simp

/-- C14 (witness): a Seek from the end on a stream of unknown length fails and
leaves the stream, body included, as it was. -/
theorem C14_seek_frame_witness :
    (File.Seek { off := 3, r := some { id := 1, pos := 3 }, rOff := 3, length := -1,
                 url := "u" } 4 SEEK_END).file
      = { off := 3, r := some { id := 1, pos := 3 }, rOff := 3, length := -1, url := "u" } :=
  (C14_seek_frame { off := 3, r := some { id := 1, pos := 3 }, rOff := 3, length := -1,
                    url := "u" } 4 SEEK_END).2.2.2.2.2 (by decide)

/-- C17: at cursor 0, when `prepareReader` issues a request and receives a 200
without Content-Length, it succeeds, adopts the response body with bound
position 0, and the stream's length after the call is the length before it. -/
theorem C17_ok_without_length (me : File) (t : Transport) (resp : Response)
    (hneed : me.needsRequest) (hoff : me.off = 0)
    (hnew : t.NewRequest "GET" me.url = none)
    (hdo : t.Do (readRequest me.url me.off) = .ok resp)
    (hs : resp.StatusCode = 200) (hcl : resp.ContentLength = "") :
    (me.prepareReader t).err = none ∧
    (me.prepareReader t).file.r = some resp.Body ∧
    (me.prepareReader t).file.rOff = 0 ∧
    (me.prepareReader t).file.off = 0 ∧
    (me.prepareReader t).file.length = me.length := by
  rw [prepareReader_200_no_length me t resp hneed hnew hdo hs hoff hcl]
  simp [hoff]

/-- C17 (witness): a fresh stream of length -1 that receives a 200 without
Content-Length holds the body at bound position 0 and still has length -1. -/
theorem C17_ok_without_length_witness :
    (File.prepareReader { off := 0, r := none, rOff := 9, length := -1, url := "u" }
      (answering { StatusCode := 200, Status := "200 OK", ContentRange := none,
                   ContentLength := "", Body := { id := 1, pos := 0 } })).file
      = { off := 0, r := some { id := 1, pos := 0 }, rOff := 0, length := -1, url := "u" } ∧
    (File.prepareReader { off := 0, r := none, rOff := 9, length := -1, url := "u" }
      (answering { StatusCode := 200, Status := "200 OK", ContentRange := none,
                   ContentLength := "", Body := { id := 1, pos := 0 } })).file.length = -1 :=
  ⟨by decide,
   (C17_ok_without_length { off := 0, r := none, rOff := 9, length := -1, url := "u" }
      (answering { StatusCode := 200, Status := "200 OK", ContentRange := none,
                   ContentLength := "", Body := { id := 1, pos := 0 } })
      _ (Or.inl rfl) rfl rfl rfl rfl rfl).2.2.2.2⟩

/-! ## The three ways `prepareReader` ends -/

/-- Every call of `prepareReader` ends in one of three ways: the held body is
reused and nothing happens; or a stale body is closed and the call fails
without a body, after no request, a request without response, or a response
whose body it closes; or a stale body is closed, one request is sent and the
body of an acceptable response is adopted at the cursor. -/
theorem prepareReader_cases (me : File) (t : Transport) :
    (∃ b, me.r = some b ∧ me.off = me.rOff ∧
      me.prepareReader t = { file := me, ret := (), err := none, events := [] }) ∨
    (me.needsRequest ∧ ∃ e evs,
      me.prepareReader t =
        { file := { me with r := none }, ret := (), err := some e,
          events := me.staleClose ++ evs } ∧
      ((evs = [] ∧ t.NewRequest "GET" me.url = some e) ∨
        evs = [.sent (readRequest me.url me.off)] ∨
        ∃ b2, evs = [.sent (readRequest me.url me.off), .received b2, .closed b2])) ∨
    (me.needsRequest ∧ ∃ resp L,
      t.Do (readRequest me.url me.off) = .ok resp ∧
      ((resp.StatusCode = 206 ∧ ∃ cr, resp.ContentRange = some cr ∧ cr.First = me.off) ∨
        (resp.StatusCode = 200 ∧ me.off = 0)) ∧
      me.prepareReader t =
        { file := { me with r := some resp.Body, rOff := me.off, length := L }, ret := (),
          err := none,
          events := me.staleClose ++
            [.sent (readRequest me.url me.off), .received resp.Body] }) := by
  by_cases hneed : me.needsRequest
  · right
    cases hnew : t.NewRequest "GET" me.url with
    | some e =>
      exact Or.inl ⟨hneed, e, [], by
        rw [prepareReader_newRequest_error me t e hneed hnew]; simp, Or.inl ⟨rfl, rfl⟩⟩
    | none =>
      cases hdo : t.Do (readRequest me.url me.off) with
      | error e =>
        exact Or.inl ⟨hneed, e, _, prepareReader_do_error me t e hneed hnew hdo,
          Or.inr (Or.inl rfl)⟩
      | ok resp =>
        by_cases h206 : resp.StatusCode = 206
        · cases hcr : resp.ContentRange with
          | none =>
            exact Or.inl ⟨hneed, _, _, prepareReader_206_unparsed me t resp hneed hnew hdo h206 hcr,
              Or.inr (Or.inr ⟨_, rfl⟩)⟩
          | some cr =>
            by_cases hf : cr.First = me.off
            · exact Or.inr ⟨hneed, resp, cr.Length, rfl, Or.inl ⟨h206, cr, hcr, hf⟩,
                prepareReader_206_accept me t resp cr hneed hnew hdo h206 hcr hf⟩
            · exact Or.inl ⟨hneed, _, _,
                prepareReader_206_mismatch me t resp cr hneed hnew hdo h206 hcr hf,
                Or.inr (Or.inr ⟨_, rfl⟩)⟩
        · by_cases h200 : resp.StatusCode = 200
          · by_cases hoff : me.off = 0
            · by_cases hcl : resp.ContentLength = ""
              · exact Or.inr ⟨hneed, resp, me.length, rfl, Or.inr ⟨h200, hoff⟩,
                  prepareReader_200_no_length me t resp hneed hnew hdo h200 hoff hcl⟩
              · cases hp : ParseUint resp.ContentLength with
                | mk v oe =>
                  cases oe with
                  | none =>
                    exact Or.inr ⟨hneed, resp, int64 v, rfl, Or.inr ⟨h200, hoff⟩,
                      prepareReader_200_length me t resp v hneed hnew hdo h200 hoff hcl hp⟩
                  | some e =>
                    exact Or.inl ⟨hneed, e, _,
                      prepareReader_200_unparsed me t resp v e hneed hnew hdo h200 hoff hcl hp,
                      Or.inr (Or.inr ⟨_, rfl⟩)⟩
            · exact Or.inl ⟨hneed, _, _,
                prepareReader_200_nonzero me t resp hneed hnew hdo h200 hoff,
                Or.inr (Or.inr ⟨_, rfl⟩)⟩
          · exact Or.inl ⟨hneed, _, _,
              prepareReader_other_status me t resp hneed hnew hdo h206 h200,
              Or.inr (Or.inr ⟨_, rfl⟩)⟩
  · left
    unfold File.needsRequest at hneed
    have hr : me.r ≠ none := fun h => hneed (Or.inl h)
    have heq : me.off = me.rOff := by
      by_contra h; exact hneed (Or.inr h)
    obtain ⟨b, hb⟩ := Option.ne_none_iff_exists'.mp hr
    exact ⟨b, hb, heq, prepareReader_reuse me t b hb heq⟩

/-- In a state that needs a request, `prepareReader` first closes the stale
body, if any, and then, `http.NewRequest` permitting, sends exactly the
request for the cursor. -/
theorem prepareReader_requests (me : File) (t : Transport) (hneed : me.needsRequest) :
    ∃ evs, (me.prepareReader t).events = me.staleClose ++ evs ∧
      (t.NewRequest "GET" me.url = none → requests evs = [readRequest me.url me.off]) := by
  rcases prepareReader_cases me t with ⟨b, hb, heq, _⟩ | ⟨_, e, evs, h, hevs⟩ |
      ⟨_, resp, L, _, _, h⟩
  · rcases hneed with h | h
    · rw [hb] at h; cases h
    · exact absurd heq h
  · refine ⟨evs, by rw [h], fun hnew => ?_⟩
    rcases hevs with ⟨_, hne⟩ | rfl | ⟨b2, rfl⟩
    · rw [hnew] at hne; cases hne
    · rfl
    · rfl
  · exact ⟨[.sent (readRequest me.url me.off), .received resp.Body], by rw [h], fun _ => rfl⟩

/-- `prepareReader` never moves the cursor and never changes the url. -/
theorem prepareReader_frame (me : File) (t : Transport) :
    (me.prepareReader t).file.off = me.off ∧ (me.prepareReader t).file.url = me.url := by
  rcases prepareReader_cases me t with ⟨b, _, _, h⟩ | ⟨_, e, evs, h, _⟩ | ⟨_, resp, L, _, _, h⟩ <;>
    rw [h] <;> exact ⟨rfl, rfl⟩

/-! ## Read moves cursor and bound position together -/

/-- C15 (counterexample): a stream at the largest `int64` value that holds a
body bound there and reads one byte ends with cursor and bound position at the
smallest `int64` value, not at cursor + n. -/
theorem C15_read_overflow :
    (File.Read { off := 2 ^ 63 - 1, r := some { id := 1, pos := 2 ^ 63 - 1 },
                 rOff := 2 ^ 63 - 1, length := -1, url := "u" }
      (failing (.external "unused")) (fun _ _ => ([7], none)) 1).ret = [7] ∧
    (File.Read { off := 2 ^ 63 - 1, r := some { id := 1, pos := 2 ^ 63 - 1 },
                 rOff := 2 ^ 63 - 1, length := -1, url := "u" }
      (failing (.external "unused")) (fun _ _ => ([7], none)) 1).file.off = -(2 ^ 63) ∧
    (File.Read { off := 2 ^ 63 - 1, r := some { id := 1, pos := 2 ^ 63 - 1 },
                 rOff := 2 ^ 63 - 1, length := -1, url := "u" }
      (failing (.external "unused")) (fun _ _ => ([7], none)) 1).file.off
      ≠ (2 ^ 63 - 1) + ([7] : List Byte).length := by
  decide

/-- C15 (amended): if reacquisition succeeds, Read returns what the body read
gives, error included, and afterwards the cursor equals the bound position and
both equal the cursor before the call plus the number n of bytes produced,
reduced to a signed 64-bit value (cursor + n itself whenever that sum is an
`int64`); if reacquisition fails, Read returns no bytes and that error, and the
cursor is unchanged. -/
theorem C15_read_advances (me : File) (t : Transport) (rd : BodyRead) (len : Nat) :
    ((me.prepareReader t).err = none →
      ∃ body, (me.prepareReader t).file.r = some body ∧
        (me.Read t rd len).ret = (rd body len).1 ∧
        (me.Read t rd len).err = (rd body len).2 ∧
        (me.Read t rd len).file.off = (me.Read t rd len).file.rOff ∧
        (me.Read t rd len).file.off = wrap64 (me.off + int64 (rd body len).1.length) ∧
        ((rd body len).1.length < 2 ^ 63 → IsInt64 (me.off + (rd body len).1.length) →
          (me.Read t rd len).file.off = me.off + (rd body len).1.length)) ∧
    (∀ e, (me.prepareReader t).err = some e →
      (me.Read t rd len).ret = [] ∧ (me.Read t rd len).err = some e ∧
      (me.Read t rd len).file.off = me.off) := by
  constructor
  · intro herr
    obtain ⟨⟨body, hb⟩, hro, ho⟩ := prepareReader_ok_body me t herr
    refine ⟨body, hb, ?_⟩
    rw [Read_of_prepare_ok me t rd len body herr hb]
    refine ⟨rfl, rfl, ?_, ?_, ?_⟩
    · simp only [hro]
    · simp only [ho]
    · intro hn hsum
      simp only [ho, int64_eq_self _ hn, wrap64_eq_self hsum]
  · intro e herr
    rw [Read_of_prepare_error me t rd len e herr]
    exact ⟨rfl, rfl, (prepareReader_frame me t).1⟩

/-- C15 (witness): a read of two bytes at cursor 3 from a held body, the body
reporting an error with them, leaves cursor and bound position at 5. -/
theorem C15_read_advances_witness :
    (File.Read { off := 3, r := some { id := 1, pos := 3 }, rOff := 3, length := -1, url := "u" }
      (failing (.external "unused")) (fun _ _ => ([7, 8], some (.external "reset"))) 4).file.off
      = 3 + 2 ∧
    (File.Read { off := 3, r := none, rOff := 3, length := -1, url := "u" }
      (failing (.external "down")) atEOF 4).file.off = 3 :=
  ⟨by
    obtain ⟨body, hb, _, _, _, _, h⟩ :=
      (C15_read_advances
        { off := 3, r := some { id := 1, pos := 3 }, rOff := 3, length := -1, url := "u" }
        (failing (.external "unused")) (fun _ _ => ([7, 8], some (.external "reset"))) 4).1 rfl
    exact h (by decide) (by decide),
   ((C15_read_advances { off := 3, r := none, rOff := 3, length := -1, url := "u" }
      (failing (.external "down")) atEOF 4).2 (.external "down") rfl).2.2⟩

/-! ## A Content-Length beyond the signed range -/

theorem parseUintLoop_lt (cs : List Char) :
    ∀ (n v : Nat), parseUintLoop cs n = (v, none) → n < 2 ^ 64 → v < 2 ^ 64 := by
  induction cs with
  | nil =>
    intro n v h hn
    simp only [parseUintLoop, Prod.mk.injEq] at h
    omega
  | cons c cs ih =>
    intro n v h hn
    rw [parseUintLoop] at h
    dsimp only at h
    split_ifs at h
    · simp at h
    · simp at h
    · exact ih _ v h (Nat.mod_lt _ (by decide))
    · simp at h

/-- What `ParseUint` reads without error is below `2^64`, from a text that is
not empty. -/
theorem ParseUint_ok (s : String) (v : Nat) (h : ParseUint s = (v, none)) :
    v < 2 ^ 64 ∧ s ≠ "" := by
  unfold ParseUint parseUintCore at h
  by_cases hs : s = ""
  · simp [hs] at h
  · simp only [hs, if_false, Prod.mk.injEq, Option.map_eq_none'] at h
    refine ⟨parseUintLoop_lt s.toList 0 v ?_ (by decide), hs⟩
    exact Prod.ext h.1 h.2

/-- C20: when `prepareReader` issues a request at cursor 0 and receives a 200
whose Content-Length `ParseUint` reads as v, it succeeds and records as length
v reinterpreted as a signed 64-bit integer: v for v < 2^63, v - 2^64 for
v >= 2^63. For v >= 2^63 the recorded length is negative, and every following
`Seek(offset, end)` fails with length unknown and leaves the stream as it is. -/
theorem C20_content_length_wraps (me : File) (t : Transport) (resp : Response) (v : Nat)
    (hneed : me.needsRequest) (hoff : me.off = 0)
    (hnew : t.NewRequest "GET" me.url = none)
    (hdo : t.Do (readRequest me.url me.off) = .ok resp)
    (hs : resp.StatusCode = 200)
    (hp : ParseUint resp.ContentLength = (v, none)) :
    (me.prepareReader t).err = none ∧
    (me.prepareReader t).file.length = (if v < 2 ^ 63 then (v : Int) else (v : Int) - 2 ^ 64) ∧
    (2 ^ 63 ≤ v →
      (me.prepareReader t).file.length < 0 ∧
      ∀ offset : Int,
        ((me.prepareReader t).file.Seek offset SEEK_END).err
          = some (.errorsNew "length unknown") ∧
        ((me.prepareReader t).file.Seek offset SEEK_END).file = (me.prepareReader t).file) := by
  obtain ⟨hv, hcl⟩ := ParseUint_ok resp.ContentLength v hp
  rw [prepareReader_200_length me t resp v hneed hnew hdo hs hoff hcl hp]
  have hlen : int64 v = (if v < 2 ^ 63 then (v : Int) else (v : Int) - 2 ^ 64) := by
    unfold int64 wrap64
    split_ifs <;> omega
  refine ⟨rfl, hlen, ?_⟩
  intro hbig
  have hneg : int64 v < 0 := by
    rw [hlen]
    split_ifs <;> omega
  refine ⟨hneg, fun offset => ?_⟩
  simp [File.Seek, SEEK_SET, SEEK_CUR, SEEK_END, hneg]

/-- C20 (witness): `Content-Length: 18446744073709551615` is recorded as
length -1, and a seek from the end then fails with length unknown. -/
theorem C20_content_length_wraps_witness :
    (File.prepareReader (Open "u")
      (answering { StatusCode := 200, Status := "200 OK", ContentRange := none,
                   ContentLength := "18446744073709551615",
                   Body := { id := 1, pos := 0 } })).file.length = -1 ∧
    ((File.prepareReader (Open "u")
      (answering { StatusCode := 200, Status := "200 OK", ContentRange := none,
                   ContentLength := "18446744073709551615",
                   Body := { id := 1, pos := 0 } })).file.Seek (-10) SEEK_END).err
      = some (.errorsNew "length unknown") :=
  ⟨by decide,
   (((C20_content_length_wraps (Open "u")
      (answering { StatusCode := 200, Status := "200 OK", ContentRange := none,
                   ContentLength := "18446744073709551615",
                   Body := { id := 1, pos := 0 } })
      _ (2 ^ 64 - 1) (Or.inl rfl) rfl rfl rfl rfl (by decide)).2.2 (by decide)).2 (-10)).1⟩

/-! ## Write and the read side -/

/-- The four ways `Write` ends. -/
theorem Write_cases (me : File) (t : Transport) (b : List Byte) :
    (∃ e, t.NewRequest "PATCH" me.url = some e ∧
      me.Write t b = { file := me, ret := 0, err := some e, events := [] }) ∨
    (∃ e, t.NewRequest "PATCH" me.url = none ∧
      t.Do (writeRequest me.url me.off b) = .error e ∧
      me.Write t b =
        { file := me, ret := 0, err := some e,
          events := [.sent (writeRequest me.url me.off b)] }) ∨
    (∃ resp, t.NewRequest "PATCH" me.url = none ∧
      t.Do (writeRequest me.url me.off b) = .ok resp ∧ resp.StatusCode ≠ 206 ∧
      me.Write t b =
        { file := me, ret := 0, err := some (.errorsNew resp.Status),
          events := [.sent (writeRequest me.url me.off b), .received resp.Body,
                     .closed resp.Body] }) ∨
    (∃ resp, t.NewRequest "PATCH" me.url = none ∧
      t.Do (writeRequest me.url me.off b) = .ok resp ∧ resp.StatusCode = 206 ∧
      me.Write t b =
        { file := { me with off := wrap64 (me.off + int64 b.length) }, ret := b.length,
          err := none,
          events := [.sent (writeRequest me.url me.off b), .received resp.Body,
                     .closed resp.Body] }) := by
  cases hnew : t.NewRequest "PATCH" me.url with
  | some e => exact Or.inl ⟨e, rfl, by simp [File.Write, hnew]⟩
  | none =>
    cases hdo : t.Do (writeRequest me.url me.off b) with
    | error e => exact Or.inr (Or.inl ⟨e, rfl, rfl, by simp [File.Write, hnew, hdo]⟩)
    | ok resp =>
      by_cases hs : resp.StatusCode = 206
      · exact Or.inr (Or.inr (Or.inr ⟨resp, rfl, rfl, hs, by simp [File.Write, hnew, hdo, hs]⟩))
      · exact Or.inr (Or.inr (Or.inl ⟨resp, rfl, rfl, hs, by simp [File.Write, hnew, hdo, hs]⟩))

/-- The bodies open after a Write are those open before it: the only body it
closes is the one its own response brought. -/
theorem track_write (me : File) (t : Transport) (b : List Byte) (s : List Nat) :
    track s (me.Write t b).events = s := by
  rcases Write_cases me t b with ⟨e, _, h⟩ | ⟨e, _, _, h⟩ | ⟨resp, _, _, _, h⟩ |
      ⟨resp, _, _, _, h⟩ <;> rw [h] <;> simp [track]

/-- C16 (counterexample): a stream reads three bytes, seeks back to 0 and
writes three bytes with success. It holds a body throughout, yet after the
Write the cursor equals the bound position 3, and the next Read reuses the
body without any request. -/
theorem C16_write_realigns :
    (run (Open "u")
      [.read (server fiveBytes true 1) (bodyOf fiveBytes 2) 3,
       .seek 0 SEEK_SET]).1
      = { off := 0, r := some { id := 1, pos := 3 }, rOff := 3, length := 5, url := "u" } ∧
    (File.Write { off := 0, r := some { id := 1, pos := 3 }, rOff := 3, length := 5, url := "u" }
      (answering { StatusCode := 206, Status := "206 Partial Content", ContentRange := none,
                   ContentLength := "", Body := { id := 2, pos := 0 } })
      [1, 2, 3]).err = none ∧
    (File.Write { off := 0, r := some { id := 1, pos := 3 }, rOff := 3, length := 5, url := "u" }
      (answering { StatusCode := 206, Status := "206 Partial Content", ContentRange := none,
                   ContentLength := "", Body := { id := 2, pos := 0 } })
      [1, 2, 3]).file
      = { off := 3, r := some { id := 1, pos := 3 }, rOff := 3, length := 5, url := "u" } ∧
    (File.Read { off := 3, r := some { id := 1, pos := 3 }, rOff := 3, length := 5, url := "u" }
      (server fiveBytes true 3) (bodyOf fiveBytes 0) 4).events = [] := by
  decide

/-- C16 (amended): Write leaves body, bound position, length and url as they
were and closes no body but the one its own response brought. After a
successful Write of a non-empty buffer on a stream that holds a body bound to
the cursor, the cursor differs from the bound position, and the next Read
first closes that body and then, `http.NewRequest` permitting, sends exactly
the request for the advanced cursor. -/
theorem C16_write_frame (me : File) (t : Transport) (b : List Byte) :
    ((me.Write t b).file.r = me.r ∧
      (me.Write t b).file.rOff = me.rOff ∧
      (me.Write t b).file.length = me.length ∧
      (me.Write t b).file.url = me.url ∧
      ∀ s, track s (me.Write t b).events = s) ∧
    (∀ body, me.r = some body → me.off = me.rOff → b ≠ [] → b.length < 2 ^ 63 →
      (me.Write t b).err = none →
      (me.Write t b).file.off ≠ (me.Write t b).file.rOff ∧
      ∀ (t2 : Transport) (rd2 : BodyRead) (len2 : Nat),
        ∃ rest, ((me.Write t b).file.Read t2 rd2 len2).events = .closed body :: rest ∧
          (t2.NewRequest "GET" me.url = none →
            requests rest = [readRequest me.url (me.Write t b).file.off])) := by
  have hframe : (me.Write t b).file.r = me.r ∧ (me.Write t b).file.rOff = me.rOff ∧
      (me.Write t b).file.length = me.length ∧ (me.Write t b).file.url = me.url := by
    rcases Write_cases me t b with ⟨e, _, h⟩ | ⟨e, _, _, h⟩ | ⟨resp, _, _, _, h⟩ |
        ⟨resp, _, _, _, h⟩ <;> rw [h] <;> exact ⟨rfl, rfl, rfl, rfl⟩
  obtain ⟨hr, hro, hl, hu⟩ := hframe
  refine ⟨⟨hr, hro, hl, hu, track_write me t b⟩, ?_⟩
  intro body hb heq hne hlen herr
  have hoff : (me.Write t b).file.off = wrap64 (me.off + int64 b.length) := by
    rcases Write_cases me t b with ⟨e, _, h⟩ | ⟨e, _, _, h⟩ | ⟨resp, _, _, _, h⟩ |
        ⟨resp, _, _, _, h⟩
    · rw [h] at herr; cases herr
    · rw [h] at herr; cases herr
    · rw [h] at herr; cases herr
    · rw [h]
  have hpos : 0 < b.length := List.length_pos.mpr hne
  have hdiff : (me.Write t b).file.off ≠ (me.Write t b).file.rOff := by
    rw [hoff, hro, ← heq, int64_eq_self b.length hlen]
    unfold wrap64
    omega
  refine ⟨hdiff, fun t2 rd2 len2 => ?_⟩
  have hneed : (me.Write t b).file.needsRequest := Or.inr hdiff
  obtain ⟨evs, hev, hreq⟩ := prepareReader_requests (me.Write t b).file t2 hneed
  have hstale : (me.Write t b).file.staleClose = [.closed body] := by
    simp [File.staleClose, hr, hb, hdiff]
  rw [Read_events, hev, hstale]
  refine ⟨evs, rfl, fun hnew => ?_⟩
  rw [hu] at hreq
  exact hreq hnew

/-- C16 (witness): a stream that holds a body bound to its cursor 3 and writes
two bytes with success is at cursor 5, bound position 3, and its next Read
closes the body and asks for offset 5. -/
theorem C16_write_frame_witness :
    (File.Write { off := 3, r := some { id := 1, pos := 3 }, rOff := 3, length := 5, url := "u" }
      (answering { StatusCode := 206, Status := "206 Partial Content", ContentRange := none,
                   ContentLength := "", Body := { id := 2, pos := 0 } })
      [8, 9]).file.off
      ≠ (File.Write { off := 3, r := some { id := 1, pos := 3 }, rOff := 3, length := 5,
                      url := "u" }
          (answering { StatusCode := 206, Status := "206 Partial Content", ContentRange := none,
                       ContentLength := "", Body := { id := 2, pos := 0 } })
          [8, 9]).file.rOff ∧
    requests (File.Read { off := 5, r := some { id := 1, pos := 3 }, rOff := 3, length := 5,
                          url := "u" } (server fiveBytes true 3) (bodyOf fiveBytes 0) 4).events
      = [readRequest "u" 5] :=
  ⟨((C16_write_frame
      { off := 3, r := some { id := 1, pos := 3 }, rOff := 3, length := 5, url := "u" }
      (answering { StatusCode := 206, Status := "206 Partial Content", ContentRange := none,
                   ContentLength := "", Body := { id := 2, pos := 0 } })
      [8, 9]).2 _ rfl rfl (by decide) (by decide) rfl).1,
   by decide⟩

/-! ## A negative cursor -/

/-- C18 (counterexample): on a fresh stream `Seek(-5, start)` sets the cursor
to -5, and a Write answered 206 then succeeds: it returns 1 and no error.
And a fresh stream that seeks to the largest `int64` value and reads one byte
holds a body bound to -2^63; `Seek(0, current)` then sets the cursor to -2^63
without error, and the next Read reuses the body and returns a byte and no
error. -/
theorem C18_negative_cursor_succeeds :
    (((Open "u").Seek (-5) SEEK_SET).file.off = -5 ∧
      (File.Write ((Open "u").Seek (-5) SEEK_SET).file
        (answering { StatusCode := 206, Status := "206 Partial Content", ContentRange := none,
                     ContentLength := "", Body := { id := 1, pos := 0 } })
        [1]).err = none ∧
      (File.Write ((Open "u").Seek (-5) SEEK_SET).file
        (answering { StatusCode := 206, Status := "206 Partial Content", ContentRange := none,
                     ContentLength := "", Body := { id := 1, pos := 0 } })
        [1]).ret = 1) ∧
    ((run (Open "u")
        [.seek (2 ^ 63 - 1) SEEK_SET,
         .read (answering { StatusCode := 206, Status := "206 Partial Content",
                            ContentRange := some { First := 2 ^ 63 - 1, Length := -1 },
                            ContentLength := "", Body := { id := 1, pos := 2 ^ 63 - 1 } })
               (fun _ _ => ([7], none)) 1]).1
        = { off := -(2 ^ 63), r := some { id := 1, pos := 2 ^ 63 }, rOff := -(2 ^ 63),
            length := -1, url := "u" } ∧
      (File.Seek { off := -(2 ^ 63), r := some { id := 1, pos := 2 ^ 63 }, rOff := -(2 ^ 63),
                   length := -1, url := "u" } 0 SEEK_CUR).err = none ∧
      (File.Seek { off := -(2 ^ 63), r := some { id := 1, pos := 2 ^ 63 }, rOff := -(2 ^ 63),
                   length := -1, url := "u" } 0 SEEK_CUR).file.off = -(2 ^ 63) ∧
      (File.Read
        (File.Seek { off := -(2 ^ 63), r := some { id := 1, pos := 2 ^ 63 }, rOff := -(2 ^ 63),
                     length := -1, url := "u" } 0 SEEK_CUR).file
        (answering { StatusCode := 206, Status := "206 Partial Content",
                     ContentRange := some { First := 0, Length := 9 },
                     ContentLength := "", Body := { id := 2, pos := 0 } })
        (fun _ _ => ([8], none)) 1).err = none ∧
      (File.Read
        (File.Seek { off := -(2 ^ 63), r := some { id := 1, pos := 2 ^ 63 }, rOff := -(2 ^ 63),
                     length := -1, url := "u" } 0 SEEK_CUR).file
        (answering { StatusCode := 206, Status := "206 Partial Content",
                     ContentRange := some { First := 0, Length := 9 },
                     ContentLength := "", Body := { id := 2, pos := 0 } })
        (fun _ _ => ([8], none)) 1).ret = [8]) := by
  decide

/-- C18 (amended): on a stream whose cursor is negative after a Seek, the next
Read returns no bytes and an error whatever the transport does, as long as it
has to issue a request (no body is held, or the held body is bound to another
position than the cursor) and a parsed Content-Range start is never negative;
when a body is held and bound to that negative cursor, the Read reuses it and
returns what the body read gives. A held body that stands where it is bound to
always forces the request. The next Write returns an error unless the PATCH is
answered 206: it succeeds exactly when `http.NewRequest` accepts the request
and the transport returns a response with status 206. -/
theorem C18_negative_cursor (me : File) (offset whence : Int)
    (hneg : (me.Seek offset whence).file.off < 0) :
    (∀ (t : Transport) (rd : BodyRead) (len : Nat),
      (me.Seek offset whence).file.needsRequest →
      (∀ req resp cr, t.Do req = .ok resp → resp.ContentRange = some cr → 0 ≤ cr.First) →
      ((me.Seek offset whence).file.Read t rd len).err ≠ none ∧
      ((me.Seek offset whence).file.Read t rd len).ret = []) ∧
    (∀ (t : Transport) (rd : BodyRead) (len : Nat) (b : Body),
      (me.Seek offset whence).file.r = some b →
      (me.Seek offset whence).file.off = (me.Seek offset whence).file.rOff →
      ((me.Seek offset whence).file.Read t rd len).ret = (rd b len).1 ∧
      ((me.Seek offset whence).file.Read t rd len).err = (rd b len).2 ∧
      ((me.Seek offset whence).file.Read t rd len).events = []) ∧
    (me.bodyInPlace → (me.Seek offset whence).file.needsRequest) ∧
    (∀ (t : Transport) (b : List Byte),
      ((me.Seek offset whence).file.Write t b).err = none ↔
        (t.NewRequest "PATCH" me.url = none ∧
          ∃ resp, t.Do (writeRequest me.url (me.Seek offset whence).file.off b) = .ok resp ∧
            resp.StatusCode = 206)) := by
  obtain ⟨_, hr, hro, _, hu, _⟩ := Seek_frame me offset whence
  refine ⟨?_, ?_, ?_, ?_⟩
  · intro t rd len hneed hparse
    rcases prepareReader_cases (me.Seek offset whence).file t with
      ⟨b, hb, heq, _⟩ | ⟨_, e, evs, h, _⟩ | ⟨_, resp, L, hdo, hacc, _⟩
    · rcases hneed with h | h
      · rw [hb] at h; cases h
      · exact absurd heq h
    · have herr : ((me.Seek offset whence).file.prepareReader t).err = some e := by rw [h]
      rw [Read_of_prepare_error _ t rd len e herr]
      exact ⟨by simp, rfl⟩
    · exfalso
      rcases hacc with ⟨_, cr, hcr, hf⟩ | ⟨_, h0⟩
      · have := hparse _ resp cr hdo hcr
        omega
      · omega
  · intro t rd len b hb heq
    have hprep := prepareReader_reuse (me.Seek offset whence).file t b hb heq
    rw [Read_of_prepare_ok _ t rd len b (by rw [hprep]) (by rw [hprep]; exact hb), hprep]
    exact ⟨rfl, rfl, rfl⟩
  · intro hin
    cases hb : me.r with
    | none => exact Or.inl (by rw [hr, hb])
    | some b =>
      right
      have := hin b hb
      rw [hro]
      omega
  · intro t b
    rcases Write_cases (me.Seek offset whence).file t b with
      ⟨e, hnew, h⟩ | ⟨e, hnew, hdo, h⟩ | ⟨resp, hnew, hdo, hs, h⟩ | ⟨resp, hnew, hdo, hs, h⟩
    · rw [h, hu] at *
      simp [hnew]
    · rw [hu] at hnew hdo
      rw [h]
      simp [hnew, hdo]
    · rw [hu] at hnew hdo
      rw [h]
      simp [hnew, hdo, hs]
    · rw [hu] at hnew hdo
      rw [h]
      simp [hnew, hdo, hs]

/-- C18 (witness): a stream that holds a body bound to 3 and seeks to -5 has to
issue a request; its next Read, answered 206 with start 0, closes the body,
sends the request and fails with bad response. -/
theorem C18_negative_cursor_witness :
    File.needsRequest
      (File.Seek { off := 3, r := some { id := 1, pos := 3 }, rOff := 3, length := 9,
                   url := "u" } (-5) SEEK_SET).file ∧
    (File.Read
      (File.Seek { off := 3, r := some { id := 1, pos := 3 }, rOff := 3, length := 9,
                   url := "u" } (-5) SEEK_SET).file
      (answering { StatusCode := 206, Status := "206 Partial Content",
                   ContentRange := some { First := 0, Length := 9 },
                   ContentLength := "", Body := { id := 2, pos := 0 } })
      atEOF 4).err ≠ none ∧
    (File.Read
      (File.Seek { off := 3, r := some { id := 1, pos := 3 }, rOff := 3, length := 9,
                   url := "u" } (-5) SEEK_SET).file
      (answering { StatusCode := 206, Status := "206 Partial Content",
                   ContentRange := some { First := 0, Length := 9 },
                   ContentLength := "", Body := { id := 2, pos := 0 } })
      atEOF 4).events
      = [.closed { id := 1, pos := 3 }, .sent (readRequest "u" (-5)),
         .received { id := 2, pos := 0 }, .closed { id := 2, pos := 0 }] :=
  have h := C18_negative_cursor
    { off := 3, r := some { id := 1, pos := 3 }, rOff := 3, length := 9, url := "u" }
    (-5) SEEK_SET (by decide)
  ⟨h.2.2.1 (by intro b hb; cases hb; rfl),
   (h.1
      (answering { StatusCode := 206, Status := "206 Partial Content",
                   ContentRange := some { First := 0, Length := 9 },
                   ContentLength := "", Body := { id := 2, pos := 0 } })
      atEOF 4
      (h.2.2.1 (by intro b hb; cases hb; rfl))
      (by
        intro req resp cr hdo hcr
        cases hdo
        cases hcr
        decide)).1,
   by decide⟩

/-! ## Length discovery against reacquisition -/

theorem toList_ne_nil (s : String) (hs : s ≠ "") : s.toList ≠ [] := by
  intro h
  apply hs
  cases s with
  | mk data =>
    simp only [String.toList] at h
    subst h
    rfl

theorem parseUintLoop_range (cs : List Char) :
    ∀ (n v : Nat), parseUintLoop cs n = (v, some .ErrRange) → v = 2 ^ 64 - 1 := by
  induction cs with
  | nil =>
    intro n v h
    simp [parseUintLoop] at h
  | cons c cs ih =>
    intro n v h
    rw [parseUintLoop] at h
    dsimp only at h
    split_ifs at h
    · simp only [Prod.mk.injEq] at h; exact h.1.symm
    · simp only [Prod.mk.injEq] at h; exact h.1.symm
    · exact ih _ v h
    · simp at h

theorem parseUintLoop_head_digit (c : Char) (cs : List Char) (n v : Nat)
    (h : parseUintLoop (c :: cs) n = (v, none)) : 48 ≤ c.toNat ∧ c.toNat ≤ 57 := by
  rw [parseUintLoop] at h
  by_contra hc
  simp [hc] at h

/-- On a text without sign `ParseInt` is `ParseUint` followed by the check
against the cutoff `1<<63`. -/
theorem ParseInt_unsigned (s : String) (hs : s ≠ "")
    (hplus : s.toList.head? ≠ some '+') (hminus : s.toList.head? ≠ some '-') :
    ParseInt s =
      if (parseUintCore s).2 = some .ErrSyntax then (0, some (.numError "ParseInt" s .ErrSyntax))
      else if (parseUintCore s).1 ≥ 2 ^ 63 then
        (2 ^ 63 - 1, some (.numError "ParseInt" s .ErrRange))
      else (int64 (parseUintCore s).1, none) := by
  have hl := toList_ne_nil s hs
  simp only [ParseInt, parseUintCore, hs, hplus, hminus, hl, if_false, or_self, false_and,
    not_false_eq_true, true_and]

/-- C11 (the code at the failing input): for a 200 with `Content-Length: -5`
`instanceLength` returns -5 without error, and so does `GetLength`, while
`prepareReader` at cursor 0 rejects the same response with the syntax error of
`ParseUint`; the same happens for `+5`. In the other direction, for a 200 with
`Content-Length: 9223372036854775808` (2^63) `instanceLength` returns a range
error while `prepareReader` accepts the response and records the length
-2^63. -/
theorem C11_parsers_disagree :
    (instanceLength { StatusCode := 200, Status := "200 OK", ContentRange := none,
                      ContentLength := "-5", Body := { id := 1, pos := 0 } } = (-5, none) ∧
      (GetLength
        (answering { StatusCode := 200, Status := "200 OK", ContentRange := none,
                     ContentLength := "-5", Body := { id := 1, pos := 0 } }) "u").ret = -5 ∧
      (GetLength
        (answering { StatusCode := 200, Status := "200 OK", ContentRange := none,
                     ContentLength := "-5", Body := { id := 1, pos := 0 } }) "u").err = none ∧
      (File.prepareReader (Open "u")
        (answering { StatusCode := 200, Status := "200 OK", ContentRange := none,
                     ContentLength := "-5", Body := { id := 1, pos := 0 } })).err
        = some (.numError "ParseUint" "-5" .ErrSyntax)) ∧
    (instanceLength { StatusCode := 200, Status := "200 OK", ContentRange := none,
                      ContentLength := "+5", Body := { id := 1, pos := 0 } } = (5, none) ∧
      (File.prepareReader (Open "u")
        (answering { StatusCode := 200, Status := "200 OK", ContentRange := none,
                     ContentLength := "+5", Body := { id := 1, pos := 0 } })).err
        = some (.numError "ParseUint" "+5" .ErrSyntax)) ∧
    ((instanceLength { StatusCode := 200, Status := "200 OK", ContentRange := none,
                       ContentLength := "9223372036854775808",
                       Body := { id := 1, pos := 0 } }).2
        = some (.numError "ParseInt" "9223372036854775808" .ErrRange) ∧
      (File.prepareReader (Open "u")
        (answering { StatusCode := 200, Status := "200 OK", ContentRange := none,
                     ContentLength := "9223372036854775808",
                     Body := { id := 1, pos := 0 } })).err = none ∧
      (File.prepareReader (Open "u")
        (answering { StatusCode := 200, Status := "200 OK", ContentRange := none,
                     ContentLength := "9223372036854775808",
                     Body := { id := 1, pos := 0 } })).file.length = -(2 ^ 63)) := by
  decide

/-- Where the two derivations of the length do agree. For a response met at
cursor 0, whose parsed start, for a 206, is 0: if on a 200 the Content-Length
does not begin with a sign and is not read by `ParseUint` as a value of 2^63 or
more, then `instanceLength` returns an error if and only if `prepareReader`
rejects the response; and whenever both accept and the response determines a
length (a 200 with Content-Length, or a 206), the value `instanceLength`
returns is the length `prepareReader` records. -/
theorem instanceLength_agrees (me : File) (t : Transport) (resp : Response)
    (hneed : me.needsRequest) (hoff : me.off = 0)
    (hnew : t.NewRequest "GET" me.url = none)
    (hdo : t.Do (readRequest me.url me.off) = .ok resp)
    (hstart : resp.StatusCode = 206 → ∀ cr, resp.ContentRange = some cr → cr.First = 0) :
    ((resp.StatusCode = 200 →
        resp.ContentLength.toList.head? ≠ some '+' ∧
        resp.ContentLength.toList.head? ≠ some '-' ∧
        ∀ v, ParseUint resp.ContentLength = (v, none) → v < 2 ^ 63) →
      ((instanceLength resp).2 ≠ none ↔ (me.prepareReader t).err ≠ none)) ∧
    ((instanceLength resp).2 = none → (me.prepareReader t).err = none →
      (resp.StatusCode = 206 ∨ (resp.StatusCode = 200 ∧ resp.ContentLength ≠ "")) →
      (instanceLength resp).1 = (me.prepareReader t).file.length) := by
  by_cases h206 : resp.StatusCode = 206
  · have hn200 : resp.StatusCode ≠ 200 := by rw [h206]; decide
    cases hcr : resp.ContentRange with
    | none =>
      rw [prepareReader_206_unparsed me t resp hneed hnew hdo h206 hcr]
      simp [instanceLength, h206, hcr]
    | some cr =>
      have hf : cr.First = me.off := by rw [hoff]; exact hstart h206 cr hcr
      rw [prepareReader_206_accept me t resp cr hneed hnew hdo h206 hcr hf]
      simp [instanceLength, h206, hcr]
  · by_cases h200 : resp.StatusCode = 200
    · by_cases hcl : resp.ContentLength = ""
      · rw [prepareReader_200_no_length me t resp hneed hnew hdo h200 hoff hcl]
        simp [instanceLength, h200, hcl]
      · have hil : instanceLength resp = ParseInt resp.ContentLength := by
          simp [instanceLength, h200, hcl]
        have hl := toList_ne_nil resp.ContentLength hcl
        cases hp : ParseUint resp.ContentLength with
        | mk v oe =>
          have hcore1 : (parseUintCore resp.ContentLength).1 = v := by
            have := congrArg Prod.fst hp
            simpa [ParseUint] using this
          cases oe with
          | none =>
            have hcore2 : (parseUintCore resp.ContentLength).2 = none := by
              have := congrArg Prod.snd hp
              simpa [ParseUint] using this
            -- a text `ParseUint` reads begins with a digit, not with a sign
            have hdig : resp.ContentLength.toList.head? ≠ some '+' ∧
                resp.ContentLength.toList.head? ≠ some '-' := by
              have hloop : parseUintLoop resp.ContentLength.toList 0 = (v, none) := by
                have h1 : parseUintCore resp.ContentLength = (v, none) :=
                  Prod.ext hcore1 hcore2
                simpa [parseUintCore, hcl] using h1
              cases hcs : resp.ContentLength.toList with
              | nil => exact absurd hcs hl
              | cons c cs =>
                rw [hcs] at hloop
                have hd := parseUintLoop_head_digit c cs 0 v hloop
                constructor
                · intro h
                  simp only [List.head?_cons, Option.some.injEq] at h
                  rw [h] at hd
                  revert hd; decide
                · intro h
                  simp only [List.head?_cons, Option.some.injEq] at h
                  rw [h] at hd
                  revert hd; decide
            have hpi := ParseInt_unsigned resp.ContentLength hcl hdig.1 hdig.2
            rw [hcore1, hcore2] at hpi
            simp only [reduceCtorEq, if_false] at hpi
            by_cases hv : v ≥ 2 ^ 63
            · rw [if_pos hv] at hpi
              rw [prepareReader_200_length me t resp v hneed hnew hdo h200 hoff hcl hp, hil, hpi]
              constructor
              · intro hgood
                have := (hgood h200).2.2 v rfl
                omega
              · intro h1
                cases h1
            · rw [if_neg hv] at hpi
              rw [prepareReader_200_length me t resp v hneed hnew hdo h200 hoff hcl hp, hil, hpi]
              constructor
              · intro _
                simp
              · intro _ _ _
                rfl
          | some e =>
            have hcore2 : (parseUintCore resp.ContentLength).2 ≠ none := by
              intro h
              have := congrArg Prod.snd hp
              simp [ParseUint, h] at this
            rw [prepareReader_200_unparsed me t resp v e hneed hnew hdo h200 hoff hcl hp, hil]
            constructor
            · intro hgood
              obtain ⟨hplus, hminus, _⟩ := hgood h200
              rw [ParseInt_unsigned resp.ContentLength hcl hplus hminus]
              cases hk : (parseUintCore resp.ContentLength).2 with
              | none => exact absurd hk hcore2
              | some k =>
                cases k with
                | ErrSyntax => simp
                | ErrRange =>
                  have hloop : parseUintLoop resp.ContentLength.toList 0 = (v, some .ErrRange) := by
                    have h1 : parseUintCore resp.ContentLength = (v, some .ErrRange) :=
                      Prod.ext hcore1 hk
                    simpa [parseUintCore, hcl] using h1
                  have hv := parseUintLoop_range _ 0 v hloop
                  have hbig : (parseUintCore resp.ContentLength).1 ≥ 2 ^ 63 := by
                    rw [hcore1, hv]; decide
                  rw [if_neg (by simp), if_pos hbig]
                  simp
            · intro _ h2
              simp at h2
    · rw [prepareReader_other_status me t resp hneed hnew hdo h206 h200]
      simp [instanceLength, h206, h200]

/-- An instance of the agreement: for a 200 with `Content-Length: 42` both
derive the length 42, and for a 200 with `Content-Length: 4x` both report an
error. -/
theorem instanceLength_agrees_example :
    (instanceLength { StatusCode := 200, Status := "200 OK", ContentRange := none,
                      ContentLength := "42", Body := { id := 1, pos := 0 } }).1
      = (File.prepareReader (Open "u")
          (answering { StatusCode := 200, Status := "200 OK", ContentRange := none,
                       ContentLength := "42", Body := { id := 1, pos := 0 } })).file.length ∧
    ((instanceLength { StatusCode := 200, Status := "200 OK", ContentRange := none,
                       ContentLength := "4x", Body := { id := 1, pos := 0 } }).2 ≠ none ↔
      (File.prepareReader (Open "u")
          (answering { StatusCode := 200, Status := "200 OK", ContentRange := none,
                       ContentLength := "4x", Body := { id := 1, pos := 0 } })).err ≠ none) :=
  ⟨(instanceLength_agrees (Open "u")
      (answering { StatusCode := 200, Status := "200 OK", ContentRange := none,
                   ContentLength := "42", Body := { id := 1, pos := 0 } })
      _ (Or.inl rfl) rfl rfl rfl
      (by intro h; cases h)).2 (by decide) (by decide) (Or.inr ⟨rfl, by decide⟩),
   (instanceLength_agrees (Open "u")
      (answering { StatusCode := 200, Status := "200 OK", ContentRange := none,
                   ContentLength := "4x", Body := { id := 1, pos := 0 } })
      _ (Or.inl rfl) rfl rfl rfl
      (by intro h; cases h)).1
      (by
        intro _
        refine ⟨by decide, by decide, ?_⟩
        intro v hv
        have h2 : (ParseUint "4x").2 = none := congrArg Prod.snd hv
        exact absurd h2 (by decide))⟩

/-! ## The bound position in reachable states -/

theorem wrap64_add (a b : Int) : wrap64 (wrap64 a + wrap64 b) = wrap64 (a + b) := by
  unfold wrap64
  omega

theorem boundToBody_prepareReader (me : File) (t : Transport) (ht : Honest t)
    (hinv : me.boundToBody) : (me.prepareReader t).file.boundToBody := by
  rcases prepareReader_cases me t with ⟨b, _, _, h⟩ | ⟨_, e, evs, h, _⟩ |
      ⟨_, resp, L, hdo, hacc, h⟩
  · rw [h]; exact hinv
  · rw [h]
    intro b hb
    cases hb
  · rw [h]
    intro b hb
    simp only [Option.some.injEq] at hb
    subst hb
    obtain ⟨h200, h206⟩ := ht _ resp hdo
    show wrap64 (resp.Body.pos : Int) = me.off
    rcases hacc with ⟨hs, cr, hcr, hf⟩ | ⟨hs, h0⟩
    · obtain ⟨hrange, hpos⟩ := h206 hs cr hcr
      rw [hpos, wrap64_eq_self hrange, hf]
    · rw [h200 hs, h0]
      rfl

theorem boundToBody_Read (me : File) (t : Transport) (rd : BodyRead) (len : Nat)
    (ht : Honest t) (hinv : me.boundToBody) : (me.Read t rd len).file.boundToBody := by
  have hp := boundToBody_prepareReader me t ht hinv
  cases herr : (me.prepareReader t).err with
  | some e =>
    rw [Read_of_prepare_error me t rd len e herr]
    exact hp
  | none =>
    obtain ⟨⟨body, hb⟩, _, _⟩ := prepareReader_ok_body me t herr
    rw [Read_of_prepare_ok me t rd len body herr hb]
    intro b hb2
    simp only [Option.some.injEq] at hb2
    subst hb2
    show wrap64 ((body.pos + (rd body len).1.length : Nat) : Int)
      = wrap64 ((me.prepareReader t).file.rOff + int64 (rd body len).1.length)
    rw [← hp body hb, int64, wrap64_add]
    push_cast
    rfl

theorem boundToBody_apply (me : File) (op : Op) (hop : AllHonest [op])
    (hinv : me.boundToBody) : (op.apply me).1.boundToBody := by
  cases op with
  | read t rd len => exact boundToBody_Read me t rd len hop.1 hinv
  | seek offset whence =>
    obtain ⟨_, hr, hro, _⟩ := Seek_frame me offset whence
    intro b hb
    simp only [Op.apply] at hb ⊢
    rw [hr] at hb
    rw [hro]
    exact hinv b hb
  | write t b =>
    intro body hb
    simp only [Op.apply] at hb ⊢
    rcases Write_cases me t b with ⟨e, _, h⟩ | ⟨e, _, _, h⟩ | ⟨resp, _, _, _, h⟩ |
        ⟨resp, _, _, _, h⟩ <;> rw [h] at hb ⊢ <;> exact hinv body hb
  | close =>
    intro b hb
    simp [Op.apply, File.Close] at hb

theorem boundToBody_run (ops : List Op) :
    ∀ me : File, AllHonest ops → me.boundToBody → (run me ops).1.boundToBody := by
  induction ops with
  | nil => intro me _ h; exact h
  | cons op ops ih =>
    intro me hall hinv
    have hop : AllHonest [op] ∧ AllHonest ops := by
      cases op <;> simp only [AllHonest] at hall ⊢ <;> simp [hall]
    exact ih _ hop.2 (boundToBody_apply me op hop.1 hinv)

theorem honest_answering (resp : Response)
    (h200 : resp.StatusCode = 200 → resp.Body.pos = 0)
    (h206 : resp.StatusCode = 206 → ∀ cr, resp.ContentRange = some cr →
      IsInt64 cr.First ∧ (resp.Body.pos : Int) = cr.First) :
    Honest (answering resp) := by
  intro req r hdo
  simp only [answering, Except.ok.injEq] at hdo
  subst hdo
  exact ⟨h200, h206⟩

/-- C13 (counterexample): a fresh stream seeks to the largest `int64` value
and reads one byte from an honest transport. It then holds a body that stands
at offset 2^63 while its bound position is -2^63. -/
theorem C13_bound_position_wraps :
    AllHonest
      [.seek (2 ^ 63 - 1) SEEK_SET,
       .read (answering { StatusCode := 206, Status := "206 Partial Content",
                          ContentRange := some { First := 2 ^ 63 - 1, Length := -1 },
                          ContentLength := "", Body := { id := 1, pos := 2 ^ 63 - 1 } })
             (fun _ _ => ([7], none)) 1] ∧
    (run (Open "u")
      [.seek (2 ^ 63 - 1) SEEK_SET,
       .read (answering { StatusCode := 206, Status := "206 Partial Content",
                          ContentRange := some { First := 2 ^ 63 - 1, Length := -1 },
                          ContentLength := "", Body := { id := 1, pos := 2 ^ 63 - 1 } })
             (fun _ _ => ([7], none)) 1]).1
      = { off := -(2 ^ 63), r := some { id := 1, pos := 2 ^ 63 }, rOff := -(2 ^ 63),
          length := -1, url := "u" } ∧
    ¬ (run (Open "u")
      [.seek (2 ^ 63 - 1) SEEK_SET,
       .read (answering { StatusCode := 206, Status := "206 Partial Content",
                          ContentRange := some { First := 2 ^ 63 - 1, Length := -1 },
                          ContentLength := "", Body := { id := 1, pos := 2 ^ 63 - 1 } })
             (fun _ _ => ([7], none)) 1]).1.bodyInPlace := by
  refine ⟨⟨honest_answering _ (by intro h; cases h) ?_, trivial⟩, by decide, ?_⟩
  · intro _ cr hcr
    cases hcr
    decide
  · intro h
    have := h { id := 1, pos := 2 ^ 63 } (by decide)
    revert this
    decide

/-- C13 (amended): in every state reachable from `Open` by Read, Seek, Write
and Close, the Reads meeting honest transports, if a body is held then the
bound position is the offset the next read from that body yields, reduced to a
signed 64-bit value; it is that offset itself as long as the offset is below
2^63. -/
theorem C13_bound_position (url : String) (ops : List Op) (hall : AllHonest ops) :
    ∀ b, (run (Open url) ops).1.r = some b →
      wrap64 (b.pos : Int) = (run (Open url) ops).1.rOff ∧
      (b.pos < 2 ^ 63 → (b.pos : Int) = (run (Open url) ops).1.rOff) := by
  intro b hb
  have hinv := boundToBody_run ops (Open url) hall (by intro b hb; cases hb) b hb
  refine ⟨hinv, fun hlt => ?_⟩
  rw [← hinv]
  exact (wrap64_eq_self (by unfold IsInt64; omega)).symm

/-- C13 (witness): after a read of three bytes, a seek to 1 and a read of two
bytes the held body stands at 3, and so does the bound position. -/
theorem C13_bound_position_witness :
    (run (Open "u")
      [.read (answering { StatusCode := 200, Status := "200 OK", ContentRange := none,
                          ContentLength := "5", Body := { id := 1, pos := 0 } })
             (bodyOf fiveBytes 2) 3,
       .seek 1 SEEK_SET,
       .read (answering { StatusCode := 206, Status := "206 Partial Content",
                          ContentRange := some { First := 1, Length := 5 },
                          ContentLength := "", Body := { id := 2, pos := 1 } })
             (bodyOf fiveBytes 1) 2]).1.r = some { id := 2, pos := 3 } ∧
    ((3 : Nat) : Int) = (run (Open "u")
      [.read (answering { StatusCode := 200, Status := "200 OK", ContentRange := none,
                          ContentLength := "5", Body := { id := 1, pos := 0 } })
             (bodyOf fiveBytes 2) 3,
       .seek 1 SEEK_SET,
       .read (answering { StatusCode := 206, Status := "206 Partial Content",
                          ContentRange := some { First := 1, Length := 5 },
                          ContentLength := "", Body := { id := 2, pos := 1 } })
             (bodyOf fiveBytes 1) 2]).1.rOff :=
  ⟨by decide,
   (C13_bound_position "u"
      [.read (answering { StatusCode := 200, Status := "200 OK", ContentRange := none,
                          ContentLength := "5", Body := { id := 1, pos := 0 } })
             (bodyOf fiveBytes 2) 3,
       .seek 1 SEEK_SET,
       .read (answering { StatusCode := 206, Status := "206 Partial Content",
                          ContentRange := some { First := 1, Length := 5 },
                          ContentLength := "", Body := { id := 2, pos := 1 } })
             (bodyOf fiveBytes 1) 2]
      ⟨honest_answering _ (by intro _; rfl) (by intro h; cases h),
       honest_answering _ (by intro h; cases h)
         (by intro _ cr hcr; cases hcr; exact ⟨by decide, rfl⟩),
       trivial⟩
      { id := 2, pos := 3 } (by decide)).2 (by decide)⟩

/-! ## Open bodies -/

theorem track_append (es1 es2 : List Event) :
    ∀ s, track s (es1 ++ es2) = track (track s es1) es2 := by
  induction es1 with
  | nil => intro s; rfl
  | cons e es ih => intro s; cases e <;> simp [track, ih]

/-- Closing the stale body leaves nothing open in a state that needs a
request. -/
theorem track_staleClose (me : File) (hneed : me.needsRequest) :
    track me.held me.staleClose = [] := by
  unfold File.held File.staleClose
  cases hr : me.r with
  | none => rfl
  | some b =>
    have hne : me.off ≠ me.rOff := by
      rcases hneed with h | h
      · rw [hr] at h; cases h
      · exact h
    simp [hne, track]

/-- After `prepareReader` the open bodies are exactly the held one. -/
theorem track_prepareReader (me : File) (t : Transport) :
    track me.held (me.prepareReader t).events = (me.prepareReader t).file.held := by
  rcases prepareReader_cases me t with ⟨b, _, _, h⟩ | ⟨hneed, e, evs, h, hevs⟩ |
      ⟨hneed, resp, L, _, _, h⟩
  · rw [h]; rfl
  · rw [h]
    simp only [track_append, track_staleClose me hneed]
    rcases hevs with ⟨rfl, _⟩ | rfl | ⟨b2, rfl⟩ <;> simp [track, File.held]
  · rw [h]
    simp only [track_append, track_staleClose me hneed]
    simp [track, File.held]

theorem held_Read (me : File) (t : Transport) (rd : BodyRead) (len : Nat) :
    (me.Read t rd len).file.held = (me.prepareReader t).file.held := by
  cases herr : (me.prepareReader t).err with
  | some e => rw [Read_of_prepare_error me t rd len e herr]
  | none =>
    obtain ⟨⟨body, hb⟩, _, _⟩ := prepareReader_ok_body me t herr
    rw [Read_of_prepare_ok me t rd len body herr hb]
    simp [File.held, hb]

theorem track_apply (me : File) (op : Op) :
    track me.held (op.apply me).2 = (op.apply me).1.held := by
  cases op with
  | read t rd len =>
    simp only [Op.apply]
    rw [Read_events, held_Read]
    exact track_prepareReader me t
  | seek offset whence =>
    obtain ⟨hev, hr, _⟩ := Seek_frame me offset whence
    simp only [Op.apply, hev, track, File.held, hr]
  | write t b =>
    simp only [Op.apply, track_write]
    rcases Write_cases me t b with ⟨e, _, h⟩ | ⟨e, _, _, h⟩ | ⟨resp, _, _, _, h⟩ |
        ⟨resp, _, _, _, h⟩ <;> simp only [h, File.held]
  | close =>
    simp only [Op.apply, File.Close, File.held]
    cases me.r <;> simp [track]

theorem track_run (ops : List Op) :
    ∀ me : File, track me.held (run me ops).2 = (run me ops).1.held := by
  induction ops with
  | nil => intro me; rfl
  | cons op ops ih =>
    intro me
    simp only [run, track_append, track_apply me op]
    exact ih _

theorem track_GetLength (t : Transport) (url : String) (s : List Nat) :
    track s (GetLength t url).events = s := by
  cases hnew : t.NewRequest "GET" url with
  | some e => simp [GetLength, hnew, track]
  | none =>
    cases hdo : t.Do (plainGet url) with
    | error e => simp [GetLength, hnew, hdo, track]
    | ok resp =>
      by_cases hs : resp.StatusCode = 404 <;> simp [GetLength, hnew, hdo, hs, track]

/-- C19: in every state reachable from `Open` by Read, Seek, Write and Close,
the bodies handed out by the transport and not yet closed are none when the
stream holds no body and exactly the held body otherwise. In particular
`prepareReader` closes a mispositioned body before anything else, so before
the new GET; on every failing path it leaves no body open and closes the body
of the response it received right after receiving it; it sends at most one
request per call; and `GetLength` leaves open what was open. -/
theorem C19_one_body (url : String) (ops : List Op) :
    (track [] (run (Open url) ops).2 = (run (Open url) ops).1.held ∧
      (run (Open url) ops).1.held.length ≤ 1) ∧
    (∀ (me : File) (t : Transport),
      (∀ b, me.r = some b → me.off ≠ me.rOff →
        ∃ rest, (me.prepareReader t).events = .closed b :: rest) ∧
      ((me.prepareReader t).err ≠ none →
        (me.prepareReader t).file.r = none ∧
        track me.held (me.prepareReader t).events = [] ∧
        ∀ b2, Event.received b2 ∈ (me.prepareReader t).events →
          ∃ before, (me.prepareReader t).events = before ++ [.received b2, .closed b2]) ∧
      (requests (me.prepareReader t).events).length ≤ 1) ∧
    (∀ (t : Transport) (u : String) (s : List Nat), track s (GetLength t u).events = s) := by
  refine ⟨⟨track_run ops (Open url), ?_⟩, ?_, track_GetLength⟩
  · unfold File.held
    cases (run (Open url) ops).1.r <;> simp
  · intro me t
    refine ⟨?_, ?_, ?_⟩
    · intro b hb hne
      obtain ⟨evs, hev, _⟩ := prepareReader_requests me t (Or.inr hne)
      refine ⟨evs, ?_⟩
      rw [hev]
      simp [File.staleClose, hb, hne]
    · intro herr
      rcases prepareReader_cases me t with ⟨b, _, _, h⟩ | ⟨hneed, e, evs, h, hevs⟩ |
          ⟨hneed, resp, L, _, _, h⟩
      · rw [h] at herr; exact absurd rfl herr
      · have htr := track_prepareReader me t
        rw [h] at htr ⊢
        refine ⟨rfl, htr, ?_⟩
        intro b2 hmem
        have hnotstale : Event.received b2 ∉ me.staleClose := by
          unfold File.staleClose
          split
          · split <;> simp
          · simp
        simp only [List.mem_append] at hmem
        rcases hmem with hmem | hmem
        · exact absurd hmem hnotstale
        · rcases hevs with ⟨rfl, _⟩ | rfl | ⟨b3, rfl⟩
          · simp at hmem
          · simp at hmem
          · simp only [List.mem_cons, reduceCtorEq, Event.received.injEq, List.mem_singleton,
              List.not_mem_nil, or_false, false_or] at hmem
            subst hmem
            exact ⟨me.staleClose ++ [.sent (readRequest me.url me.off)], by simp⟩
      · rw [h] at herr; exact absurd rfl herr
    · rcases prepareReader_cases me t with ⟨b, _, _, h⟩ | ⟨hneed, e, evs, h, hevs⟩ |
          ⟨hneed, resp, L, _, _, h⟩
      · rw [h]; simp [requests]
      · rw [h, requests_append, requests_staleClose]
        rcases hevs with ⟨rfl, _⟩ | rfl | ⟨b3, rfl⟩ <;> simp [requests]
      · rw [h, requests_append, requests_staleClose]
        simp [requests]

/-- C19 (witness): a stream whose body is bound to 3 while the cursor is 0 and
that meets a 503 closes the old body first, then sends its request and closes
the body of the 503: nothing is left open. -/
theorem C19_one_body_witness :
    (File.prepareReader { off := 0, r := some { id := 1, pos := 3 }, rOff := 3, length := 5,
                          url := "u" }
      (answering { StatusCode := 503, Status := "503 Service Unavailable",
                   ContentRange := none, ContentLength := "",
                   Body := { id := 2, pos := 0 } })).events
      = [.closed { id := 1, pos := 3 }, .sent (readRequest "u" 0),
         .received { id := 2, pos := 0 }, .closed { id := 2, pos := 0 }] ∧
    track (File.held { off := 0, r := some { id := 1, pos := 3 }, rOff := 3, length := 5,
                       url := "u" })
      (File.prepareReader { off := 0, r := some { id := 1, pos := 3 }, rOff := 3, length := 5,
                            url := "u" }
        (answering { StatusCode := 503, Status := "503 Service Unavailable",
                     ContentRange := none, ContentLength := "",
                     Body := { id := 2, pos := 0 } })).events = [] :=
  ⟨by decide,
   (((C19_one_body "u" []).2.1
      { off := 0, r := some { id := 1, pos := 3 }, rOff := 3, length := 5, url := "u" }
      (answering { StatusCode := 503, Status := "503 Service Unavailable",
                   ContentRange := none, ContentLength := "",
                   Body := { id := 2, pos := 0 } })).2.1 (by decide)).2.1⟩

end httpfile
